import Mathlib

/-!
HD44780 character-LCD driver: embedding and verified properties.

A shallow embedding of `components/HD44780/src/HD44780.c` and `HD44780.h`.

* The module-level globals of the driver (`rows`, `columns`, `displayMode`,
  `fourBus`, `eightBus`, `enablePin`, `rsPin`) are the fields of `Session`.
  The two bus pointers are `Option`s: `none` is the null pointer the globals
  hold before an init call, and dereferencing it makes an operation fail
  (`none`).
* The GPIO and delay collaborators (`gpio_set_direction`, `gpio_set_level`,
  `ets_delay_us`, `vTaskDelay`) append one `Event` each to `Session.trace`,
  so the trace is the recording of every pin write and every delay, in
  program order.
* `int` values are `Int`; `unsigned short` values are `Nat`, reduced modulo
  `2 ^ 16` wherever the C code converts to `unsigned short` (`toUShort`, and
  the shifted value in `HD44780_Send8BitsIn4BitMode`).  An `int` expression is
  only ever observed through such a conversion, which does not depend on
  whether the 32-bit addition wrapped.
-/

namespace HD44780

/-! ## Data model -/

/-- A GPIO pin identifier (`gpio_num_t`). -/
abbrev gpio_num_t := Int

/-- One recorded call of a GPIO or delay collaborator. -/
inductive Event where
  /-- Recorded for `gpio_set_direction(pin, GPIO_MODE_OUTPUT)`. -/
  | direction (pin : gpio_num_t)
  /-- Recorded for `gpio_set_level(pin, level)`; `high` is `level != 0`. -/
  | level (pin : gpio_num_t) (high : Bool)
  /-- Recorded for `ets_delay_us(us)`. -/
  | delayUs (us : Nat)
  /-- Recorded for `vTaskDelay(ticks)`. -/
  | taskDelay (ticks : Nat)
  deriving DecidableEq, Repr

/-- The struct `HD44780_FOUR_BIT_BUS` of `HD44780.h`. -/
structure HD44780_FOUR_BIT_BUS where
  rows : Int
  columns : Int
  D4 : gpio_num_t
  D5 : gpio_num_t
  D6 : gpio_num_t
  D7 : gpio_num_t
  RS : gpio_num_t
  E : gpio_num_t
  deriving DecidableEq, Repr

/-- The struct `HD44780_EIGHT_BIT_BUS` of `HD44780.h`. -/
structure HD44780_EIGHT_BIT_BUS where
  rows : Int
  columns : Int
  D0 : gpio_num_t
  D1 : gpio_num_t
  D2 : gpio_num_t
  D3 : gpio_num_t
  D4 : gpio_num_t
  D5 : gpio_num_t
  D6 : gpio_num_t
  D7 : gpio_num_t
  RS : gpio_num_t
  E : gpio_num_t
  deriving DecidableEq, Repr

/-- The driver globals of `HD44780.c` (lines 16-22) together with the
recording of the collaborators' calls. -/
structure Session where
  rows : Int
  columns : Int
  displayMode : Nat
  fourBus : Option HD44780_FOUR_BIT_BUS
  eightBus : Option HD44780_EIGHT_BIT_BUS
  enablePin : gpio_num_t
  rsPin : gpio_num_t
  trace : List Event
  deriving DecidableEq, Repr

/-! ## Constants of `HD44780.h` and `HD44780.c` -/

def HD44780_INIT_SEQ : Nat := 0x30
def HD44780_DISP_CLEAR : Nat := 0x01
def HD44780_DISP_OFF : Nat := 0x08
def HD44780_DISP_ON : Nat := 0x0C
def HD44780_CURSOR_ON : Nat := 0x0E
def HD44780_CURSOR_BLINK : Nat := 0x0F
def HD44780_RETURN_HOME : Nat := 0x02
def HD44780_ENTRY_MODE : Nat := 0x06
/-- The macro of `HD44780.h` line 106. It is defined after the enum of the
same name, so every use in `HD44780.c` expands to `0x20`. -/
def HD44780_FOUR_BIT_MODE : Nat := 0x20
/-- The macro of `HD44780.h` line 107; every use in `HD44780.c` expands to
`0x30`. -/
def HD44780_EIGHT_BIT_MODE : Nat := 0x30
def HD44780_SET_POSITION : Int := 0x80
def HD44780_SHIFT_RIGHT : Nat := 0x1C
def HD44780_SHIFT_LEFT : Nat := 0x18
def HD44780_TWO_ROWS : Nat := 0x08
def HD44780_FONT_5X8 : Nat := 0x00
def HD44780_FONT_5X10 : Nat := 0x40
def HD44780_ROW1_START : Int := 0x00
def HD44780_ROW2_START : Int := 0x40
def HD44780_ROW3_START : Int := 0x14
def HD44780_ROW4_START : Int := 0x54
def HD44780_CGRAM_START : Int := 0x40

def VOLTAGE_CHANGE_DELAY_US : Nat := 5
def INSTRUCTION_DELAY_US : Nat := 70

/-- `ONE_HUNDRED_MILLI_DELAY`, for the FreeRTOS tick period
`portTICK_PERIOD_MS` (a build-time constant that is not part of the driver). -/
def ONE_HUNDRED_MILLI_DELAY (portTICK_PERIOD_MS : Nat) : Nat := 100 / portTICK_PERIOD_MS

/-- `TWENTY_MILLI_DELAY`, for the FreeRTOS tick period `portTICK_PERIOD_MS`. -/
def TWENTY_MILLI_DELAY (portTICK_PERIOD_MS : Nat) : Nat := 20 / portTICK_PERIOD_MS

/-- Conversion of an `int` value to `unsigned short` (16 bits). -/
def toUShort (v : Int) : Nat := (v % 65536).toNat

/-! ## Collaborators: GPIO and delays -/

/-- Append one event to the recording. -/
def Session.record (s : Session) (e : Event) : Session :=
  { s with trace := s.trace ++ [e] }

/-- Append a list of events to the recording. -/
def Session.emit (s : Session) (es : List Event) : Session :=
  { s with trace := s.trace ++ es }

/-- The call `gpio_set_direction(pin, GPIO_MODE_OUTPUT)`. -/
def gpio_set_direction (s : Session) (pin : gpio_num_t) : Session :=
  s.record (Event.direction pin)

/-- The call `gpio_set_level(pin, level)`: the pin is driven high exactly when
`level` is nonzero. -/
def gpio_set_level (s : Session) (pin : gpio_num_t) (level : Nat) : Session :=
  s.record (Event.level pin (level != 0))

/-- The call `ets_delay_us(us)`. -/
def ets_delay_us (s : Session) (us : Nat) : Session :=
  s.record (Event.delayUs us)

/-- The call `vTaskDelay(ticks)`. -/
def vTaskDelay (s : Session) (ticks : Nat) : Session :=
  s.record (Event.taskDelay ticks)

/-! ## Private functions of the driver -/

/-- `HD44780_Pulse_E` (`HD44780.c` lines 277-282). -/
def HD44780_Pulse_E (s : Session) : Session :=
  let s := gpio_set_level s s.enablePin 1
  let s := ets_delay_us s VOLTAGE_CHANGE_DELAY_US
  let s := gpio_set_level s s.enablePin 0
  ets_delay_us s VOLTAGE_CHANGE_DELAY_US

/-- `HD44780_SetUpperNibble` (`HD44780.c` lines 289-314). The pins are read
through `eightBus` in eight-bit mode and through `fourBus` otherwise. -/
def HD44780_SetUpperNibble (s : Session) (data : Nat) : Option Session :=
  let pins : Option (gpio_num_t × gpio_num_t × gpio_num_t × gpio_num_t) :=
    if s.displayMode = HD44780_EIGHT_BIT_MODE then
      s.eightBus.map fun bus => (bus.D7, bus.D6, bus.D5, bus.D4)
    else
      s.fourBus.map fun bus => (bus.D7, bus.D6, bus.D5, bus.D4)
  match pins with
  | none => none
  | some (D7, D6, D5, D4) =>
    let s := gpio_set_level s D7 (data &&& 0x80)
    let s := gpio_set_level s D6 (data &&& 0x40)
    let s := gpio_set_level s D5 (data &&& 0x20)
    let s := gpio_set_level s D4 (data &&& 0x10)
    some (ets_delay_us s VOLTAGE_CHANGE_DELAY_US)

/-- `HD44780_SetLowerNibble` (`HD44780.c` lines 323-335). -/
def HD44780_SetLowerNibble (s : Session) (data : Nat) : Option Session :=
  if s.displayMode ≠ HD44780_EIGHT_BIT_MODE then
    some s
  else
    match s.eightBus with
    | none => none
    | some bus =>
      let s := gpio_set_level s bus.D3 (data &&& 0x08)
      let s := gpio_set_level s bus.D2 (data &&& 0x04)
      let s := gpio_set_level s bus.D1 (data &&& 0x02)
      let s := gpio_set_level s bus.D0 (data &&& 0x01)
      some (ets_delay_us s VOLTAGE_CHANGE_DELAY_US)

/-- `HD44780_Send4BitsIn4BitMode` (`HD44780.c` lines 342-346). -/
def HD44780_Send4BitsIn4BitMode (s : Session) (data : Nat) : Option Session := do
  let s ← HD44780_SetUpperNibble s data
  let s := HD44780_Pulse_E s
  pure (ets_delay_us s INSTRUCTION_DELAY_US)

/-- `HD44780_Send8BitsIn8BitMode` (`HD44780.c` lines 354-359). -/
def HD44780_Send8BitsIn8BitMode (s : Session) (data : Nat) : Option Session := do
  let s ← HD44780_SetUpperNibble s data
  let s ← HD44780_SetLowerNibble s data
  let s := HD44780_Pulse_E s
  pure (ets_delay_us s INSTRUCTION_DELAY_US)

/-- `HD44780_Send8BitsIn4BitMode` (`HD44780.c` lines 368-377). The argument
`data << 4` is converted to `unsigned short`, that is, reduced modulo
`2 ^ 16`. -/
def HD44780_Send8BitsIn4BitMode (s : Session) (data : Nat) : Option Session := do
  let s ← HD44780_SetUpperNibble s data
  let s := HD44780_Pulse_E s
  let s ← HD44780_SetUpperNibble s ((data <<< 4) % 65536)
  let s := HD44780_Pulse_E s
  pure (ets_delay_us s INSTRUCTION_DELAY_US)

/-- `HD44780_Send4BitStartInstruction` (`HD44780.c` lines 387-392). -/
def HD44780_Send4BitStartInstruction (s : Session) (data : Nat) : Option Session := do
  let s := gpio_set_level s s.rsPin 0
  let s ← HD44780_Send4BitsIn4BitMode s data
  pure (ets_delay_us s INSTRUCTION_DELAY_US)

/-- `HD44780_SendInstruction` (`HD44780.c` lines 399-408). -/
def HD44780_SendInstruction (s : Session) (data : Nat) : Option Session :=
  let s := gpio_set_level s s.rsPin 0
  if s.displayMode = HD44780_FOUR_BIT_MODE then
    HD44780_Send8BitsIn4BitMode s data
  else
    HD44780_Send8BitsIn8BitMode s data

/-- `HD44780_SendData` (`HD44780.c` lines 415-424). -/
def HD44780_SendData (s : Session) (data : Nat) : Option Session :=
  let s := gpio_set_level s s.rsPin 1
  if s.displayMode = HD44780_FOUR_BIT_MODE then
    HD44780_Send8BitsIn4BitMode s data
  else
    HD44780_Send8BitsIn8BitMode s data

/-! ## Public functions of the driver -/

/-- `HD44780_setCursorPos` (`HD44780.c` lines 168-184). A row that passes the
bounds check and is none of 0, 1, 2, 3 falls through the `if` chain. -/
def HD44780_setCursorPos (s : Session) (x y : Int) : Option Session :=
  if x < 0 ∨ y < 0 ∨ x > s.columns ∨ y > s.rows then
    some s
  else if y = 0 then
    HD44780_SendInstruction s (toUShort (Int.lor HD44780_SET_POSITION (HD44780_ROW1_START + x)))
  else if y = 1 then
    HD44780_SendInstruction s (toUShort (Int.lor HD44780_SET_POSITION (HD44780_ROW2_START + x)))
  else if y = 2 then
    HD44780_SendInstruction s (toUShort (Int.lor HD44780_SET_POSITION (HD44780_ROW3_START + x)))
  else if y = 3 then
    HD44780_SendInstruction s (toUShort (Int.lor HD44780_SET_POSITION (HD44780_ROW4_START + x)))
  else
    some s

/-- `HD44780_writeChar` (`HD44780.c` lines 142-146). The `int` argument is
converted to `unsigned short` at the call of `HD44780_SendData`. -/
def HD44780_writeChar (s : Session) (slot : Int) : Option Session :=
  if slot < 8 then
    HD44780_SendData s (toUShort slot)
  else
    some s

/-- `HD44780_createChar` (`HD44780.c` lines 127-134). The glyph `data` is the
memory behind the `uint8_t*` argument; reading past its end fails. -/
def HD44780_createChar (s : Session) (slot : Int) (data : List Nat) : Option Session :=
  if slot < 8 then do
    let s ← HD44780_SendInstruction s (toUShort (HD44780_CGRAM_START + slot * 8))
    (List.range 8).foldlM
      (fun s i => do
        let b ← data[i]?
        HD44780_SendData s b)
      s
  else
    some s

/-- Conversion of a `size_t` value to `int` (32 bits, two's complement). -/
def toInt32 (n : Nat) : Int :=
  if n % 4294967296 < 2147483648 then (n % 4294967296 : Nat) else (n % 4294967296 : Nat) - 4294967296

/-- The value of a `char` holding the byte `c`, as an `int`: the byte itself
where `char` is unsigned, its two's complement reading where `char` is
signed. Which of the two holds is fixed by the target ABI. -/
def charValue (charIsSigned : Bool) (c : Nat) : Int :=
  if charIsSigned ∧ 128 ≤ c then (c : Int) - 256 else c

/-- `HD44780_print` (`HD44780.c` lines 95-100). The string `data` is the list
of the bytes before its terminating NUL, so `strlen(data)` is the length of
the list. -/
def HD44780_print (charIsSigned : Bool) (s : Session) (data : List Nat) : Option Session :=
  let length : Int := toInt32 data.length
  (List.range length.toNat).foldlM
    (fun s i => do
      let c ← data[i]?
      HD44780_SendData s (toUShort (charValue charIsSigned c)))
    s

/-- `HD44780_clear` (`HD44780.c` lines 107-110). -/
def HD44780_clear (portTICK_PERIOD_MS : Nat) (s : Session) : Option Session := do
  let s ← HD44780_SendInstruction s HD44780_DISP_CLEAR
  pure (vTaskDelay s (TWENTY_MILLI_DELAY portTICK_PERIOD_MS))

/-- `HD44780_homeCursor` (`HD44780.c` lines 115-117). -/
def HD44780_homeCursor (s : Session) : Option Session :=
  HD44780_setCursorPos s 0 0

/-- `HD44780_shiftDispLeft` (`HD44780.c` lines 151-153). -/
def HD44780_shiftDispLeft (s : Session) : Option Session :=
  HD44780_SendInstruction s HD44780_SHIFT_LEFT

/-- `HD44780_shiftDispRight` (`HD44780.c` lines 158-160). -/
def HD44780_shiftDispRight (s : Session) : Option Session :=
  HD44780_SendInstruction s HD44780_SHIFT_RIGHT

/-- `HD44780_blink` (`HD44780.c` lines 189-191). -/
def HD44780_blink (s : Session) : Option Session :=
  HD44780_SendInstruction s HD44780_CURSOR_BLINK

/-- `HD44780_noBlink` (`HD44780.c` lines 196-198). -/
def HD44780_noBlink (s : Session) : Option Session :=
  HD44780_SendInstruction s HD44780_CURSOR_ON

/-- `HD44780_cursor` (`HD44780.c` lines 204-206). -/
def HD44780_cursor (s : Session) : Option Session :=
  HD44780_SendInstruction s HD44780_CURSOR_ON

/-- `HD44780_noCursor` (`HD44780.c` lines 211-213). -/
def HD44780_noCursor (s : Session) : Option Session :=
  HD44780_SendInstruction s HD44780_DISP_ON

/-- `HD44780_dispOff` (`HD44780.c` lines 220-222). -/
def HD44780_dispOff (s : Session) : Option Session :=
  HD44780_SendInstruction s HD44780_DISP_OFF

/-- `HD44780_dispOn` (`HD44780.c` lines 228-230). -/
def HD44780_dispOn (s : Session) : Option Session :=
  HD44780_SendInstruction s HD44780_DISP_ON

/-- `HD44780_InitDisplay` (`HD44780.c` lines 239-272). -/
def HD44780_InitDisplay (portTICK_PERIOD_MS : Nat) (s : Session) : Option Session := do
  let s := vTaskDelay s (ONE_HUNDRED_MILLI_DELAY portTICK_PERIOD_MS)
  let s ← HD44780_Send4BitStartInstruction s HD44780_INIT_SEQ
  let s := vTaskDelay s (TWENTY_MILLI_DELAY portTICK_PERIOD_MS)
  let s ← HD44780_Send4BitStartInstruction s HD44780_INIT_SEQ
  let s := vTaskDelay s (TWENTY_MILLI_DELAY portTICK_PERIOD_MS)
  let s ← HD44780_Send4BitStartInstruction s HD44780_INIT_SEQ
  let s := vTaskDelay s (TWENTY_MILLI_DELAY portTICK_PERIOD_MS)
  let s ←
    if s.displayMode = HD44780_FOUR_BIT_MODE then do
      let s ← HD44780_Send4BitStartInstruction s HD44780_FOUR_BIT_MODE
      HD44780_SendInstruction s (HD44780_FOUR_BIT_MODE ||| HD44780_TWO_ROWS ||| HD44780_FONT_5X8)
    else
      HD44780_SendInstruction s (HD44780_EIGHT_BIT_MODE ||| HD44780_TWO_ROWS ||| HD44780_FONT_5X8)
  let s ← HD44780_SendInstruction s HD44780_DISP_OFF
  let s ← HD44780_SendInstruction s HD44780_DISP_CLEAR
  let s := vTaskDelay s (TWENTY_MILLI_DELAY portTICK_PERIOD_MS)
  let s ← HD44780_SendInstruction s HD44780_ENTRY_MODE
  HD44780_SendInstruction s HD44780_DISP_ON

/-- `HD44780_initFourBitBus` (`HD44780.c` lines 37-54). -/
def HD44780_initFourBitBus (portTICK_PERIOD_MS : Nat) (s : Session)
    (fourBitBus : HD44780_FOUR_BIT_BUS) : Option Session :=
  let s := { s with displayMode := HD44780_FOUR_BIT_MODE }
  let s := { s with fourBus := some fourBitBus }
  let s := { s with rows := fourBitBus.rows }
  let s := { s with columns := fourBitBus.columns }
  let s := gpio_set_direction s fourBitBus.D4
  let s := gpio_set_direction s fourBitBus.D5
  let s := gpio_set_direction s fourBitBus.D6
  let s := gpio_set_direction s fourBitBus.D7
  let s := gpio_set_direction s fourBitBus.E
  let s := gpio_set_direction s fourBitBus.RS
  let s := { s with enablePin := fourBitBus.E }
  let s := { s with rsPin := fourBitBus.RS }
  HD44780_InitDisplay portTICK_PERIOD_MS s

/-- `HD44780_initEightBitBus` (`HD44780.c` lines 62-85). -/
def HD44780_initEightBitBus (portTICK_PERIOD_MS : Nat) (s : Session)
    (eightBitBus : HD44780_EIGHT_BIT_BUS) : Option Session :=
  let s := { s with displayMode := HD44780_EIGHT_BIT_MODE }
  let s := { s with eightBus := some eightBitBus }
  let s := { s with rows := eightBitBus.rows }
  let s := { s with columns := eightBitBus.columns }
  let s := gpio_set_direction s eightBitBus.D0
  let s := gpio_set_direction s eightBitBus.D1
  let s := gpio_set_direction s eightBitBus.D2
  let s := gpio_set_direction s eightBitBus.D3
  let s := gpio_set_direction s eightBitBus.D4
  let s := gpio_set_direction s eightBitBus.D5
  let s := gpio_set_direction s eightBitBus.D6
  let s := gpio_set_direction s eightBitBus.D7
  let s := gpio_set_direction s eightBitBus.E
  let s := gpio_set_direction s eightBitBus.RS
  let s := { s with enablePin := eightBitBus.E }
  let s := { s with rsPin := eightBitBus.RS }
  HD44780_InitDisplay portTICK_PERIOD_MS s

/-- The globals before any init call: zero-initialised, null bus pointers,
nothing recorded. -/
def Session.boot : Session :=
  { rows := 0, columns := 0, displayMode := 0, fourBus := none, eightBus := none,
    enablePin := 0, rsPin := 0, trace := [] }

/-! ## Reference framing

The definitions of this section are not translated from the code: they write
down, event by event, the recording that the specification prescribes for one
transmitted byte, and the theorems below compare the driver with them. -/

/-- The bus variant of an initialised session, with its descriptor. -/
inductive Wiring where
  | fourLine (bus : HD44780_FOUR_BIT_BUS)
  | eightLine (bus : HD44780_EIGHT_BIT_BUS)
  deriving DecidableEq, Repr

/-- The session is in the bus mode of `w` and its bus pointer for that mode
refers to the descriptor of `w`. -/
def Session.WiredAs (s : Session) : Wiring → Prop
  | Wiring.fourLine bus => s.displayMode = HD44780_FOUR_BIT_MODE ∧ s.fourBus = some bus
  | Wiring.eightLine bus => s.displayMode = HD44780_EIGHT_BIT_MODE ∧ s.eightBus = some bus

/-- Reference recording of one enable pulse on pin `e`: E high, 5 us, E low,
5 us. -/
def enablePulse (e : gpio_num_t) : List Event :=
  [Event.level e true, Event.delayUs 5, Event.level e false, Event.delayUs 5]

/-- Reference recording of the byte `b` going out with the RS line at level
`rs` (`false` for an instruction, `true` for data).

Four-line bus: RS, bits 7..4 of `b` on D7..D4, a pulse, bits 3..0 of `b` on
D7..D4, a pulse, the 70 us instruction delay. Eight-line bus: RS, bits 7..4 on
D7..D4, bits 3..0 on D3..D0, one pulse, the 70 us instruction delay. -/
def byteFrame (w : Wiring) (rsPin e : gpio_num_t) (rs : Bool) (b : Nat) : List Event :=
  match w with
  | Wiring.fourLine bus =>
    [Event.level rsPin rs,
     Event.level bus.D7 (b.testBit 7), Event.level bus.D6 (b.testBit 6),
     Event.level bus.D5 (b.testBit 5), Event.level bus.D4 (b.testBit 4),
     Event.delayUs 5]
    ++ enablePulse e ++
    [Event.level bus.D7 (b.testBit 3), Event.level bus.D6 (b.testBit 2),
     Event.level bus.D5 (b.testBit 1), Event.level bus.D4 (b.testBit 0),
     Event.delayUs 5]
    ++ enablePulse e ++ [Event.delayUs 70]
  | Wiring.eightLine bus =>
    [Event.level rsPin rs,
     Event.level bus.D7 (b.testBit 7), Event.level bus.D6 (b.testBit 6),
     Event.level bus.D5 (b.testBit 5), Event.level bus.D4 (b.testBit 4),
     Event.delayUs 5,
     Event.level bus.D3 (b.testBit 3), Event.level bus.D2 (b.testBit 2),
     Event.level bus.D1 (b.testBit 1), Event.level bus.D0 (b.testBit 0),
     Event.delayUs 5]
    ++ enablePulse e ++ [Event.delayUs 70]

/-- Reference row-address table of the specification: row 0 at 0x00, row 1 at
0x40, row 2 at 0x14, row 3 at 0x54. -/
def rowBase (row : Int) : Int :=
  if row = 0 then 0x00
  else if row = 1 then 0x40
  else if row = 2 then 0x14
  else 0x54

/-- The pin writes of a recording, delays left out. -/
def pinWrites (es : List Event) : List (gpio_num_t × Bool) :=
  es.filterMap fun e =>
    match e with
    | Event.level pin high => some (pin, high)
    | _ => none

/-- The four-line bus descriptor of the example applications
(`HD44780_FOUR_BIT_BUS bus = { 2, 16, 25, 26, 27, 32, 17, 19 }`): a 2-row,
16-column panel. -/
def exampleBus : HD44780_FOUR_BIT_BUS :=
  { rows := 2, columns := 16, D4 := 25, D5 := 26, D6 := 27, D7 := 32, RS := 17, E := 19 }

/-- The globals after `HD44780_initFourBitBus(&bus)` for `exampleBus`, with an
empty recording. -/
def exampleSession : Session :=
  { rows := 2, columns := 16, displayMode := HD44780_FOUR_BIT_MODE,
    fourBus := some exampleBus, eightBus := none,
    enablePin := 19, rsPin := 17, trace := [] }

/-- An eight-line bus descriptor for a 2-row, 16-column panel. -/
def exampleBus8 : HD44780_EIGHT_BIT_BUS :=
  { rows := 2, columns := 16, D0 := 4, D1 := 5, D2 := 12, D3 := 13,
    D4 := 25, D5 := 26, D6 := 27, D7 := 32, RS := 17, E := 19 }

/-- The globals after `HD44780_initEightBitBus(&bus)` for `exampleBus8`, with
an empty recording. -/
def exampleSession8 : Session :=
  { rows := 2, columns := 16, displayMode := HD44780_EIGHT_BIT_MODE,
    fourBus := none, eightBus := some exampleBus8,
    enablePin := 19, rsPin := 17, trace := [] }

/-- The smiley glyph of the scroll example. -/
def smileyChar : List Nat := [0x00, 0x0A, 0x0A, 0x00, 0x11, 0x11, 0x0E, 0x00]

/-! ## Reference vocabulary for initialisation, pulses and delays

Like the reference framing above, these definitions are not translated from
the code; they name the measurements the theorems make on a recording. -/

/-- Reference recording of a single-nibble instruction: RS low, the four bits
of `n` on D7..D4 (D3..D0 are not written, whatever the bus width), 5 us, one
enable pulse, then the 70 us instruction delay twice. -/
def nibbleFrame (w : Wiring) (rsPin e : gpio_num_t) (n : Nat) : List Event :=
  match w with
  | Wiring.fourLine bus =>
    [Event.level rsPin false,
     Event.level bus.D7 (n.testBit 3), Event.level bus.D6 (n.testBit 2),
     Event.level bus.D5 (n.testBit 1), Event.level bus.D4 (n.testBit 0),
     Event.delayUs 5]
    ++ enablePulse e ++ [Event.delayUs 70, Event.delayUs 70]
  | Wiring.eightLine bus =>
    [Event.level rsPin false,
     Event.level bus.D7 (n.testBit 3), Event.level bus.D6 (n.testBit 2),
     Event.level bus.D5 (n.testBit 1), Event.level bus.D4 (n.testBit 0),
     Event.delayUs 5]
    ++ enablePulse e ++ [Event.delayUs 70, Event.delayUs 70]

/-- The events recorded between the session `s` and a later session `t`. -/
def newEvents (s t : Session) : List Event :=
  t.trace.drop s.trace.length

/-- Whether an event is a delay (`ets_delay_us` or `vTaskDelay`). -/
def Event.isDelay : Event → Bool
  | Event.delayUs _ => true
  | Event.taskDelay _ => true
  | _ => false

/-- The number of positions of a recording at which the block `pat` occurs. -/
def occurrences (pat : List Event) : List Event → Nat
  | [] => 0
  | e :: rest =>
    (if (e :: rest).take pat.length = pat then 1 else 0) + occurrences pat rest

/-- For every occurrence of the block `frame` in a recording, in order, the
run of delays recorded right after it, up to the next event that is not a
delay. -/
def delaysAfter (frame : List Event) : List Event → List (List Event)
  | [] => []
  | e :: rest =>
    if (e :: rest).take frame.length = frame then
      (((e :: rest).drop frame.length).takeWhile Event.isDelay) :: delaysAfter frame rest
    else
      delaysAfter frame rest

/-- The level a pin is left at by a recording: that of the last write to it,
if there is one. -/
def lastLevel (pin : gpio_num_t) (es : List Event) : Option Bool :=
  ((pinWrites es).reverse.find? fun p => p.1 = pin).map Prod.snd

/-- The globals as `HD44780_initFourBitBus` sets them for the descriptor
`bus`, before anything is recorded. -/
def Session.withFourBus (s : Session) (bus : HD44780_FOUR_BIT_BUS) : Session :=
  { s with displayMode := HD44780_FOUR_BIT_MODE, fourBus := some bus, rows := bus.rows,
           columns := bus.columns, enablePin := bus.E, rsPin := bus.RS }

/-- The globals as `HD44780_initEightBitBus` sets them for the descriptor
`bus`, before anything is recorded. -/
def Session.withEightBus (s : Session) (bus : HD44780_EIGHT_BIT_BUS) : Session :=
  { s with displayMode := HD44780_EIGHT_BIT_MODE, eightBus := some bus, rows := bus.rows,
           columns := bus.columns, enablePin := bus.E, rsPin := bus.RS }

/-! ## Sequences of calls -/

/-- One call of a public function other than the two init functions. A glyph
is the eight bytes behind the `uint8_t*` argument of `HD44780_createChar`. -/
inductive Op where
  | print (data : List Nat)
  | clear
  | setCursorPos (x y : Int)
  | homeCursor
  | createChar (slot : Int) (glyph : Fin 8 → Nat)
  | writeChar (slot : Int)
  | shiftDispLeft
  | shiftDispRight
  | blink
  | noBlink
  | cursor
  | noCursor
  | dispOff
  | dispOn

/-- Perform one call on the session. -/
def Op.run (portTICK_PERIOD_MS : Nat) (charIsSigned : Bool) (s : Session) : Op → Option Session
  | Op.print data => HD44780_print charIsSigned s data
  | Op.clear => HD44780_clear portTICK_PERIOD_MS s
  | Op.setCursorPos x y => HD44780_setCursorPos s x y
  | Op.homeCursor => HD44780_homeCursor s
  | Op.createChar slot glyph => HD44780_createChar s slot (List.ofFn glyph)
  | Op.writeChar slot => HD44780_writeChar s slot
  | Op.shiftDispLeft => HD44780_shiftDispLeft s
  | Op.shiftDispRight => HD44780_shiftDispRight s
  | Op.blink => HD44780_blink s
  | Op.noBlink => HD44780_noBlink s
  | Op.cursor => HD44780_cursor s
  | Op.noCursor => HD44780_noCursor s
  | Op.dispOff => HD44780_dispOff s
  | Op.dispOn => HD44780_dispOn s

/-- Perform a sequence of calls, in order. -/
def runOps (portTICK_PERIOD_MS : Nat) (charIsSigned : Bool) (s : Session) (ops : List Op) :
    Option Session :=
  ops.foldlM (fun s op => op.run portTICK_PERIOD_MS charIsSigned s) s

/-! ## Reference model of the receiving controller

Not translated from the code: the data lines of a bus, and the byte that the
controller at the other end of the wires latches from a recording. -/

/-- The data lines of a bus, most significant first: D7..D4 on a four-line
bus, D7..D0 on an eight-line bus. -/
def Wiring.dataPins : Wiring → List gpio_num_t
  | Wiring.fourLine bus => [bus.D7, bus.D6, bus.D5, bus.D4]
  | Wiring.eightLine bus =>
    [bus.D7, bus.D6, bus.D5, bus.D4, bus.D3, bus.D2, bus.D1, bus.D0]

/-- The levels of `lines` that the controller latches at each falling edge of
the enable pin `e` (a write of low to `e` while it is high), in order. `seen`
is the recording so far; a line that was never written reads low. -/
def latchedLevels (e : gpio_num_t) (lines : List gpio_num_t) :
    List Event → List Event → List (List Bool)
  | _, [] => []
  | seen, ev :: rest =>
    if ev = Event.level e false ∧ lastLevel e seen = some true then
      (lines.map fun p => (lastLevel p seen).getD false)
        :: latchedLevels e lines (seen ++ [ev]) rest
    else
      latchedLevels e lines (seen ++ [ev]) rest

/-- The number written by a list of bits, most significant first. -/
def bitsValue (bits : List Bool) : Nat :=
  bits.foldl (fun acc b => 2 * acc + b.toNat) 0

/-- The byte the controller reconstructs from the recording of one
transmission: on a four-line bus two nibbles are latched from D7..D4 and the
byte is the first times 16 plus the second; on an eight-line bus one byte is
latched from D7..D0. Any other number of latches gives no byte. -/
def reconstructedByte (w : Wiring) (e : gpio_num_t) (es : List Event) : Option Nat :=
  match w, latchedLevels e w.dataPins [] es with
  | Wiring.fourLine _, [hi, lo] => some (bitsValue hi * 16 + bitsValue lo)
  | Wiring.eightLine _, [byte] => some (bitsValue byte)
  | _, _ => none

/-- The globals after `HD44780_initFourBitBus` on a 4-row, 20-column panel
wired like `exampleBus`, with an empty recording. -/
def exampleSession4x20 : Session :=
  { rows := 4, columns := 20, displayMode := HD44780_FOUR_BIT_MODE,
    fourBus := some { exampleBus with rows := 4, columns := 20 }, eightBus := none,
    enablePin := 19, rsPin := 17, trace := [] }

/-! ## Bit-level facts -/

theorem and_two_pow_bne_zero (v i : Nat) : (v &&& 2 ^ i != 0) = v.testBit i := by
  cases h : v.testBit i
  · have hz : v &&& 2 ^ i = 0 := by
      apply Nat.eq_of_testBit_eq
      intro j
      simp only [Nat.testBit_and, Nat.zero_testBit, Nat.testBit_two_pow]
      by_cases hj : i = j
      · subst hj; simp [h]
      · simp [hj]
    simp [hz]
  · have hb : (v &&& 2 ^ i).testBit i = true := by
      simp [Nat.testBit_and, h, Nat.testBit_two_pow_self]
    have hne : v &&& 2 ^ i ≠ 0 := by
      intro h0
      rw [h0] at hb
      simp at hb
    simpa using hne

theorem testBit_shl4 (v i : Nat) (hi : i < 12) :
    ((v <<< 4) % 65536).testBit (i + 4) = v.testBit i := by
  have h16 : (65536 : Nat) = 2 ^ 16 := by norm_num
  rw [h16, Nat.testBit_mod_two_pow, Nat.testBit_shiftLeft]
  simp
  omega

theorem level_bit7 (v : Nat) : (v &&& 0x80 != 0) = v.testBit 7 := and_two_pow_bne_zero v 7
theorem level_bit6 (v : Nat) : (v &&& 0x40 != 0) = v.testBit 6 := and_two_pow_bne_zero v 6
theorem level_bit5 (v : Nat) : (v &&& 0x20 != 0) = v.testBit 5 := and_two_pow_bne_zero v 5
theorem level_bit4 (v : Nat) : (v &&& 0x10 != 0) = v.testBit 4 := and_two_pow_bne_zero v 4
theorem level_bit3 (v : Nat) : (v &&& 0x08 != 0) = v.testBit 3 := and_two_pow_bne_zero v 3
theorem level_bit2 (v : Nat) : (v &&& 0x04 != 0) = v.testBit 2 := and_two_pow_bne_zero v 2
theorem level_bit1 (v : Nat) : (v &&& 0x02 != 0) = v.testBit 1 := and_two_pow_bne_zero v 1
theorem level_bit0 (v : Nat) : (v &&& 0x01 != 0) = v.testBit 0 := and_two_pow_bne_zero v 0

theorem testBit_mod_256 (v i : Nat) (hi : i < 8) : (v % 256).testBit i = v.testBit i := by
  have h8 : (256 : Nat) = 2 ^ 8 := by norm_num
  rw [h8, Nat.testBit_mod_two_pow]
  simp [hi]

theorem toUShort_mod_256 (v : Int) : toUShort v % 256 = (v % 256).toNat := by
  unfold toUShort
  omega

theorem toUShort_of_byte (v : Int) (h0 : 0 ≤ v) (h : v < 256) : toUShort v = v.toNat := by
  unfold toUShort
  omega

/-! ## Framing lemmas -/

theorem byteFrame_mod_256 (w : Wiring) (rsPin e : gpio_num_t) (rs : Bool) (v : Nat) :
    byteFrame w rsPin e rs (v % 256) = byteFrame w rsPin e rs v := by
  cases w <;> simp only [byteFrame, testBit_mod_256 v _ (by norm_num : (7 : Nat) < 8),
    testBit_mod_256 v _ (by norm_num : (6 : Nat) < 8), testBit_mod_256 v _ (by norm_num : (5 : Nat) < 8),
    testBit_mod_256 v _ (by norm_num : (4 : Nat) < 8), testBit_mod_256 v _ (by norm_num : (3 : Nat) < 8),
    testBit_mod_256 v _ (by norm_num : (2 : Nat) < 8), testBit_mod_256 v _ (by norm_num : (1 : Nat) < 8),
    testBit_mod_256 v _ (by norm_num : (0 : Nat) < 8)]

theorem byteFrame_toUShort (w : Wiring) (rsPin e : gpio_num_t) (rs : Bool) (v : Int) :
    byteFrame w rsPin e rs (toUShort v) = byteFrame w rsPin e rs (v % 256).toNat := by
  rw [← byteFrame_mod_256, toUShort_mod_256]

theorem emit_emit (s : Session) (a b : List Event) : (s.emit a).emit b = s.emit (a ++ b) := by
  simp [Session.emit]

theorem emit_nil (s : Session) : s.emit [] = s := by
  simp [Session.emit]

theorem wiredAs_emit (s : Session) (w : Wiring) (es : List Event) (hw : s.WiredAs w) :
    (s.emit es).WiredAs w := by
  cases w <;> exact hw

theorem send_fourLine (s : Session) (bus : HD44780_FOUR_BIT_BUS) (rs : Nat) (v : Nat)
    (hm : s.displayMode = HD44780_FOUR_BIT_MODE) (hb : s.fourBus = some bus) :
    HD44780_Send8BitsIn4BitMode (gpio_set_level s s.rsPin rs) v
      = some (s.emit (byteFrame (Wiring.fourLine bus) s.rsPin s.enablePin (rs != 0) v)) := by
  have h3 := testBit_shl4 v 3 (by norm_num)
  have h2 := testBit_shl4 v 2 (by norm_num)
  have h1 := testBit_shl4 v 1 (by norm_num)
  have h0 := testBit_shl4 v 0 (by norm_num)
  simp only [Nat.reduceAdd] at h3 h2 h1 h0
  simp [HD44780_Send8BitsIn4BitMode, HD44780_SetUpperNibble, HD44780_Pulse_E, gpio_set_level,
    ets_delay_us, Session.record, Session.emit, byteFrame, enablePulse, hm, hb,
    HD44780_FOUR_BIT_MODE, HD44780_EIGHT_BIT_MODE, VOLTAGE_CHANGE_DELAY_US, INSTRUCTION_DELAY_US,
    level_bit7, level_bit6, level_bit5, level_bit4, h3, h2, h1, h0]

theorem send_eightLine (s : Session) (bus : HD44780_EIGHT_BIT_BUS) (rs : Nat) (v : Nat)
    (hm : s.displayMode = HD44780_EIGHT_BIT_MODE) (hb : s.eightBus = some bus) :
    HD44780_Send8BitsIn8BitMode (gpio_set_level s s.rsPin rs) v
      = some (s.emit (byteFrame (Wiring.eightLine bus) s.rsPin s.enablePin (rs != 0) v)) := by
  simp [HD44780_Send8BitsIn8BitMode, HD44780_SetUpperNibble, HD44780_SetLowerNibble,
    HD44780_Pulse_E, gpio_set_level,
    ets_delay_us, Session.record, Session.emit, byteFrame, enablePulse, hm, hb,
    HD44780_EIGHT_BIT_MODE, VOLTAGE_CHANGE_DELAY_US, INSTRUCTION_DELAY_US,
    level_bit7, level_bit6, level_bit5, level_bit4, level_bit3, level_bit2, level_bit1,
    level_bit0]
  rcases Nat.mod_two_eq_zero_or_one v with h | h <;> simp [h]

/-- In either bus mode `HD44780_SendInstruction` records exactly the reference
frame of its argument with RS low. -/
theorem SendInstruction_frame (s : Session) (w : Wiring) (v : Nat) (hw : s.WiredAs w) :
    HD44780_SendInstruction s v
      = some (s.emit (byteFrame w s.rsPin s.enablePin false v)) := by
  cases w with
  | fourLine bus =>
    obtain ⟨hm, hb⟩ := hw
    have h := send_fourLine s bus 0 v hm hb
    have hm2 : (gpio_set_level s s.rsPin 0).displayMode = HD44780_FOUR_BIT_MODE := hm
    simp only [HD44780_SendInstruction, hm2, if_true]
    simpa using h
  | eightLine bus =>
    obtain ⟨hm, hb⟩ := hw
    have h := send_eightLine s bus 0 v hm hb
    have hm2 : ¬ (gpio_set_level s s.rsPin 0).displayMode = HD44780_FOUR_BIT_MODE := by
      show ¬ s.displayMode = HD44780_FOUR_BIT_MODE
      rw [hm]; decide
    simp only [HD44780_SendInstruction, hm2, if_false]
    simpa using h

/-- In either bus mode `HD44780_SendData` records exactly the reference frame
of its argument with RS high. -/
theorem SendData_frame (s : Session) (w : Wiring) (v : Nat) (hw : s.WiredAs w) :
    HD44780_SendData s v
      = some (s.emit (byteFrame w s.rsPin s.enablePin true v)) := by
  cases w with
  | fourLine bus =>
    obtain ⟨hm, hb⟩ := hw
    have h := send_fourLine s bus 1 v hm hb
    have hm2 : (gpio_set_level s s.rsPin 1).displayMode = HD44780_FOUR_BIT_MODE := hm
    simp only [HD44780_SendData, hm2, if_true]
    simpa using h
  | eightLine bus =>
    obtain ⟨hm, hb⟩ := hw
    have h := send_eightLine s bus 1 v hm hb
    have hm2 : ¬ (gpio_set_level s s.rsPin 1).displayMode = HD44780_FOUR_BIT_MODE := by
      show ¬ s.displayMode = HD44780_FOUR_BIT_MODE
      rw [hm]; decide
    simp only [HD44780_SendData, hm2, if_false]
    simpa using h

theorem exampleSession_wired : exampleSession.WiredAs (Wiring.fourLine exampleBus) :=
  ⟨rfl, rfl⟩

theorem exampleSession8_wired : exampleSession8.WiredAs (Wiring.eightLine exampleBus8) :=
  ⟨rfl, rfl⟩

/-- The example session holds the globals that `HD44780_initFourBitBus`
leaves behind when called on the zero-initialised globals. -/
theorem exampleSession_reachable :
    (HD44780_initFourBitBus 10 Session.boot exampleBus).map
      (fun s => { s with trace := [] }) = some exampleSession := by
  decide

/-- The eight-line example session holds the globals that
`HD44780_initEightBitBus` leaves behind. -/
theorem exampleSession8_reachable :
    (HD44780_initEightBitBus 10 Session.boot exampleBus8).map
      (fun s => { s with trace := [] }) = some exampleSession8 := by
  decide

/-! ## Cursor positioning -/

/-- C1: in either bus mode, for every (column, row) that passes the bounds
check of `HD44780_setCursorPos` with row 0, 1, 2 or 3, the call records
exactly one frame, sent as an instruction (RS low), whose byte is the low 8
bits of `0x80 | (rowBase + column)`, with `rowBase` 0x00, 0x40, 0x14, 0x54 for
rows 0, 1, 2, 3; nothing is sent as data. -/
theorem setCursorPos_sends_one_instruction (s : Session) (w : Wiring) (x y : Int)
    (hw : s.WiredAs w)
    (hbounds : ¬ (x < 0 ∨ y < 0 ∨ x > s.columns ∨ y > s.rows))
    (hrow : y = 0 ∨ y = 1 ∨ y = 2 ∨ y = 3) :
    HD44780_setCursorPos s x y
      = some (s.emit (byteFrame w s.rsPin s.enablePin false
          (Int.lor 0x80 (rowBase y + x) % 256).toNat)) := by
  unfold HD44780_setCursorPos
  rw [if_neg hbounds]
  rcases hrow with h | h | h | h <;> subst h <;>
    simp [SendInstruction_frame s w _ hw, byteFrame_toUShort, rowBase, HD44780_SET_POSITION,
      HD44780_ROW1_START, HD44780_ROW2_START, HD44780_ROW3_START, HD44780_ROW4_START]

/-- Witness for C1: column 3 of row 1 on the example panel is addressed by the
single instruction byte 0xC3. -/
theorem setCursorPos_sends_one_instruction_witness :
    HD44780_setCursorPos exampleSession 3 1
      = some (exampleSession.emit (byteFrame (Wiring.fourLine exampleBus)
          exampleSession.rsPin exampleSession.enablePin false
          (Int.lor 0x80 (rowBase 1 + 3) % 256).toNat))
    ∧ (Int.lor 0x80 (rowBase 1 + 3) % 256).toNat = 0xC3 :=
  ⟨setCursorPos_sends_one_instruction exampleSession (Wiring.fourLine exampleBus) 3 1
      exampleSession_wired (by decide) (by decide), by decide⟩

/-- C2: when column < 0, or row < 0, or column > configured columns, or
row > configured rows, `HD44780_setCursorPos` returns at once: it records no
pin write and no delay and leaves every global unchanged. This holds for every
state of the globals. -/
theorem setCursorPos_rejected_is_noop (s : Session) (x y : Int)
    (h : x < 0 ∨ y < 0 ∨ x > s.columns ∨ y > s.rows) :
    HD44780_setCursorPos s x y = some s := by
  unfold HD44780_setCursorPos
  rw [if_pos h]

/-- Witness for C2: (-1, 0), (0, 4) and (99, 0) on the 2-row, 16-column
example panel. -/
theorem setCursorPos_rejected_is_noop_witness :
    HD44780_setCursorPos exampleSession (-1) 0 = some exampleSession
    ∧ HD44780_setCursorPos exampleSession 0 4 = some exampleSession
    ∧ HD44780_setCursorPos exampleSession 99 0 = some exampleSession :=
  ⟨setCursorPos_rejected_is_noop exampleSession (-1) 0 (by decide),
   setCursorPos_rejected_is_noop exampleSession 0 4 (by decide),
   setCursorPos_rejected_is_noop exampleSession 99 0 (by decide)⟩

/-- C3 (the code departs from it): on the 2-row, 16-column example panel the
cells are columns 0..15 of rows 0..1, yet column 16 and row 2 are not ignored:
`HD44780_setCursorPos(16, 0)` sends the instruction byte 0x90 and
`HD44780_setCursorPos(0, 2)` sends the instruction byte 0x94. -/
theorem setCursorPos_accepts_column_count_and_row_count :
    HD44780_setCursorPos exampleSession 16 0
      = some (exampleSession.emit (byteFrame (Wiring.fourLine exampleBus) 17 19 false 0x90))
    ∧ HD44780_setCursorPos exampleSession 0 2
      = some (exampleSession.emit (byteFrame (Wiring.fourLine exampleBus) 17 19 false 0x94))
    ∧ byteFrame (Wiring.fourLine exampleBus) 17 19 false 0x90 ≠ []
    ∧ byteFrame (Wiring.fourLine exampleBus) 17 19 false 0x94 ≠ [] := by
  decide

/-! ## Loops that send a buffer byte by byte -/

/-- Sending the elements of a list one after the other as data records their
data frames in order. -/
theorem foldlM_SendData (w : Wiring) (g : Nat → Nat) (data : List Nat) (s : Session)
    (hw : s.WiredAs w) :
    data.foldlM (fun s c => HD44780_SendData s (g c)) s
      = some (s.emit (data.flatMap fun c => byteFrame w s.rsPin s.enablePin true (g c))) := by
  induction data generalizing s with
  | nil => simp [emit_nil]
  | cons c t ih =>
    rw [List.foldlM_cons, SendData_frame s w _ hw]
    simp only [Option.bind_eq_bind, Option.some_bind]
    rw [ih _ (wiredAs_emit s w _ hw), emit_emit]
    simp [Session.emit, List.flatMap_cons]

/-- A counted loop reading `buf[i]` for the indices of a suffix of the buffer
visits the elements of that suffix in order. -/
theorem foldlM_index_suffix (f : Session → Nat → Option Session) (pre post : List Nat)
    (s : Session) :
    (List.range' pre.length post.length).foldlM
        (fun s i => do
          let c ← (pre ++ post)[i]?
          f s c) s
      = post.foldlM f s := by
  induction post generalizing pre s with
  | nil => simp
  | cons a t ih =>
    have hlen : (pre ++ [a]).length = pre.length + 1 := by simp
    have happ : pre ++ a :: t = (pre ++ [a]) ++ t := by simp
    simp only [List.length_cons, List.range'_succ, List.foldlM_cons]
    have hget : (pre ++ a :: t)[pre.length]? = some a := by
      rw [List.getElem?_append_right (Nat.le_refl _)]
      simp
    rw [hget]
    simp only [Option.bind_eq_bind, Option.some_bind]
    congr 1
    funext s1
    have h := ih (pre ++ [a]) s1
    rw [hlen, ← happ] at h
    exact h

/-- A counted loop over all indices of a buffer visits its elements in
order. -/
theorem foldlM_index (f : Session → Nat → Option Session) (data : List Nat) (s : Session) :
    (List.range data.length).foldlM
        (fun s i => do
          let c ← data[i]?
          f s c) s
      = data.foldlM f s := by
  have h := foldlM_index_suffix f [] data s
  simpa [List.range_eq_range'] using h

/-! ## Custom glyphs -/

/-- For every slot that passes the test `slot < 8`, `HD44780_createChar`
records the instruction frame of `0x40 + slot * 8` converted to
`unsigned short`, followed by the data frames of the glyph bytes. -/
theorem createChar_frames (s : Session) (w : Wiring) (slot : Int) (data : List Nat)
    (hw : s.WiredAs w) (hslot : slot < 8) (hlen : data.length = 8) :
    HD44780_createChar s slot data
      = some (s.emit (byteFrame w s.rsPin s.enablePin false
            (toUShort (HD44780_CGRAM_START + slot * 8))
          ++ data.flatMap fun b => byteFrame w s.rsPin s.enablePin true b)) := by
  have hloop := foldlM_index (fun s b => HD44780_SendData s b) data
  simp only [Option.bind_eq_bind, hlen] at hloop
  unfold HD44780_createChar
  rw [if_pos hslot, SendInstruction_frame s w _ hw]
  simp only [Option.bind_eq_bind, Option.some_bind]
  rw [hloop, foldlM_SendData w (fun b => b) data _ (wiredAs_emit s w _ hw), emit_emit]
  rfl

/-- For every slot that passes the test `slot < 8`, `HD44780_writeChar`
records the data frame of the slot converted to `unsigned short`. -/
theorem writeChar_frames (s : Session) (w : Wiring) (slot : Int)
    (hw : s.WiredAs w) (hslot : slot < 8) :
    HD44780_writeChar s slot
      = some (s.emit (byteFrame w s.rsPin s.enablePin true (toUShort slot))) := by
  unfold HD44780_writeChar
  rw [if_pos hslot, SendData_frame s w _ hw]

/-- C4: in either bus mode, for every slot in 0..7 and every 8-byte glyph,
`HD44780_createChar` records exactly nine frames in this order: one
instruction frame (RS low) for the byte `0x40 + slot * 8`, then the data
frames (RS high) of the eight glyph bytes in index order. -/
theorem createChar_sends_address_then_glyph (s : Session) (w : Wiring) (slot : Int)
    (data : List Nat) (hw : s.WiredAs w) (h0 : 0 ≤ slot) (h7 : slot ≤ 7)
    (hlen : data.length = 8) (_hbytes : ∀ b ∈ data, b < 256) :
    HD44780_createChar s slot data
      = some (s.emit (byteFrame w s.rsPin s.enablePin false (0x40 + slot * 8).toNat
          ++ data.flatMap fun b => byteFrame w s.rsPin s.enablePin true b)) := by
  have hbyte : toUShort (HD44780_CGRAM_START + slot * 8) = (0x40 + slot * 8).toNat := by
    unfold HD44780_CGRAM_START
    exact toUShort_of_byte _ (by omega) (by omega)
  rw [createChar_frames s w slot data hw (by omega) hlen, hbyte]

/-- Witness for C4: slot 3 with the smiley glyph; the address instruction is
0x58. -/
theorem createChar_sends_address_then_glyph_witness :
    HD44780_createChar exampleSession 3 smileyChar
      = some (exampleSession.emit
          (byteFrame (Wiring.fourLine exampleBus) exampleSession.rsPin exampleSession.enablePin
              false (0x40 + 3 * 8 : Int).toNat
            ++ smileyChar.flatMap fun b =>
              byteFrame (Wiring.fourLine exampleBus) exampleSession.rsPin
                exampleSession.enablePin true b))
    ∧ (0x40 + 3 * 8 : Int).toNat = 0x58 :=
  ⟨createChar_sends_address_then_glyph exampleSession (Wiring.fourLine exampleBus) 3 smileyChar
      exampleSession_wired (by decide) (by decide) (by decide) (by decide), by decide⟩

/-- C5 (the code departs from it): a negative slot passes the test `slot < 8`.
`HD44780_createChar(-1, smileyChar)` on the example panel sends the
instruction byte 0x38, which is `0x40 - 8` and lies below the CGRAM address
range, followed by the eight glyph bytes as data. -/
theorem createChar_negative_slot_transmits :
    HD44780_createChar exampleSession (-1) smileyChar
      = some (exampleSession.emit
          (byteFrame (Wiring.fourLine exampleBus) 17 19 false 0x38
            ++ smileyChar.flatMap fun b => byteFrame (Wiring.fourLine exampleBus) 17 19 true b))
    ∧ byteFrame (Wiring.fourLine exampleBus) 17 19 false 0x38 ≠ [] := by
  refine ⟨?_, by decide⟩
  rw [createChar_frames exampleSession (Wiring.fourLine exampleBus) (-1) smileyChar
    exampleSession_wired (by decide) rfl]
  rfl

/-- C6: in either bus mode, for every slot in 0..7, `HD44780_writeChar`
records exactly one frame, sent as data (RS high), whose byte is the slot
number; the result equals that of `HD44780_SendData` on the character code
`slot`. -/
theorem writeChar_sends_slot_as_data (s : Session) (w : Wiring) (slot : Int)
    (hw : s.WiredAs w) (h0 : 0 ≤ slot) (h7 : slot ≤ 7) :
    HD44780_writeChar s slot
      = some (s.emit (byteFrame w s.rsPin s.enablePin true slot.toNat))
    ∧ HD44780_writeChar s slot = HD44780_SendData s slot.toNat := by
  have hslot : slot < 8 := by omega
  have hbyte : toUShort slot = slot.toNat := toUShort_of_byte _ h0 (by omega)
  unfold HD44780_writeChar
  rw [if_pos hslot, hbyte]
  exact ⟨SendData_frame s w _ hw, rfl⟩

/-- Witness for C6: slot 5 on the eight-line example panel. -/
theorem writeChar_sends_slot_as_data_witness :
    HD44780_writeChar exampleSession8 5
      = some (exampleSession8.emit (byteFrame (Wiring.eightLine exampleBus8)
          exampleSession8.rsPin exampleSession8.enablePin true (5 : Int).toNat))
    ∧ HD44780_writeChar exampleSession8 5 = HD44780_SendData exampleSession8 (5 : Int).toNat :=
  writeChar_sends_slot_as_data exampleSession8 (Wiring.eightLine exampleBus8) 5
    exampleSession8_wired (by decide) (by decide)

/-- C7 (the code departs from it): a negative slot passes the test `slot < 8`.
`HD44780_writeChar(-1)` on the example panel sends the data byte 0xFF. -/
theorem writeChar_negative_slot_transmits :
    HD44780_writeChar exampleSession (-1)
      = some (exampleSession.emit (byteFrame (Wiring.fourLine exampleBus) 17 19 true 0xFF))
    ∧ byteFrame (Wiring.fourLine exampleBus) 17 19 true 0xFF ≠ [] := by
  refine ⟨?_, by decide⟩
  rw [writeChar_frames exampleSession (Wiring.fourLine exampleBus) (-1)
    exampleSession_wired (by decide)]
  rfl

/-! ## Printing -/

theorem toInt32_of_lt (n : Nat) (h : n < 2147483648) : (toInt32 n).toNat = n := by
  unfold toInt32
  have h1 : n % 4294967296 = n := Nat.mod_eq_of_lt (by omega)
  rw [h1, if_pos h]
  simp

theorem byteFrame_charValue (w : Wiring) (rsPin e : gpio_num_t) (rs : Bool)
    (charIsSigned : Bool) (c : Nat) :
    byteFrame w rsPin e rs (toUShort (charValue charIsSigned c)) = byteFrame w rsPin e rs c := by
  have hc : (charValue charIsSigned c % 256).toNat = c % 256 := by
    unfold charValue
    split <;> omega
  rw [byteFrame_toUShort, hc, byteFrame_mod_256]

/-- C8: in either bus mode and for either signedness of `char`, for every
string of n characters `HD44780_print` records exactly n frames, all sent as
data (RS high), the i-th being the frame of the character code of the i-th
character; the empty string records nothing; the configured column count
plays no part. -/
theorem print_sends_each_character (charIsSigned : Bool) (s : Session) (w : Wiring)
    (data : List Nat) (hw : s.WiredAs w) (hlen : data.length < 2147483648)
    (_hbytes : ∀ c ∈ data, 0 < c ∧ c < 256) :
    HD44780_print charIsSigned s data
      = some (s.emit (data.flatMap fun c => byteFrame w s.rsPin s.enablePin true c))
    ∧ HD44780_print charIsSigned s [] = some s := by
  constructor
  · unfold HD44780_print
    simp only [toInt32_of_lt _ hlen]
    rw [foldlM_index (fun s c => HD44780_SendData s (toUShort (charValue charIsSigned c))) data]
    rw [foldlM_SendData w (fun c => toUShort (charValue charIsSigned c)) data s hw]
    simp only [byteFrame_charValue]
  · rfl

/-- Witness for C8: a 20-character string, with a character code above 0x7F,
on the 16-column example panel, `char` being signed. -/
theorem print_sends_each_character_witness :
    HD44780_print true exampleSession
        [0x54, 0x65, 0x6D, 0x70, 0x3A, 0x20, 0x32, 0x31, 0x2E, 0x35, 0xDF, 0x43, 0x20, 0x69,
         0x6E, 0x64, 0x6F, 0x6F, 0x72, 0x73]
      = some (exampleSession.emit
          (List.flatMap
            [0x54, 0x65, 0x6D, 0x70, 0x3A, 0x20, 0x32, 0x31, 0x2E, 0x35, 0xDF, 0x43, 0x20, 0x69,
             0x6E, 0x64, 0x6F, 0x6F, 0x72, 0x73]
            fun c => byteFrame (Wiring.fourLine exampleBus) exampleSession.rsPin
              exampleSession.enablePin true c))
    ∧ HD44780_print true exampleSession [] = some exampleSession :=
  print_sends_each_character true exampleSession (Wiring.fourLine exampleBus) _
    exampleSession_wired (by decide) (by decide)

/-! ## Byte framing on the wire -/

/-- C9: for every value `b` passed to `HD44780_SendInstruction` in four-line
mode the call succeeds and appends exactly this recording: RS low; bits 7, 6,
5, 4 of `b` on D7, D6, D5, D4; 5 us; one enable pulse (E high, 5 us, E low,
5 us); bits 3, 2, 1, 0 of `b` on D7, D6, D5, D4; 5 us; one enable pulse; 70 us.
Its pin writes are therefore, in order: RS once, the four data lines, E high
and low, the four data lines again, E high and low, and no other pin. -/
theorem SendInstruction_fourLine_trace (s : Session) (bus : HD44780_FOUR_BIT_BUS) (b : Nat)
    (hm : s.displayMode = HD44780_FOUR_BIT_MODE) (hb : s.fourBus = some bus) :
    HD44780_SendInstruction s b
      = some { s with trace := s.trace ++
          [Event.level s.rsPin false,
           Event.level bus.D7 (b.testBit 7), Event.level bus.D6 (b.testBit 6),
           Event.level bus.D5 (b.testBit 5), Event.level bus.D4 (b.testBit 4),
           Event.delayUs 5,
           Event.level s.enablePin true, Event.delayUs 5,
           Event.level s.enablePin false, Event.delayUs 5,
           Event.level bus.D7 (b.testBit 3), Event.level bus.D6 (b.testBit 2),
           Event.level bus.D5 (b.testBit 1), Event.level bus.D4 (b.testBit 0),
           Event.delayUs 5,
           Event.level s.enablePin true, Event.delayUs 5,
           Event.level s.enablePin false, Event.delayUs 5,
           Event.delayUs 70] }
    ∧ (HD44780_SendInstruction s b).map (fun t => pinWrites (t.trace.drop s.trace.length))
      = some [(s.rsPin, false),
         (bus.D7, b.testBit 7), (bus.D6, b.testBit 6), (bus.D5, b.testBit 5),
         (bus.D4, b.testBit 4),
         (s.enablePin, true), (s.enablePin, false),
         (bus.D7, b.testBit 3), (bus.D6, b.testBit 2), (bus.D5, b.testBit 1),
         (bus.D4, b.testBit 0),
         (s.enablePin, true), (s.enablePin, false)] := by
  rw [SendInstruction_frame s (Wiring.fourLine bus) b ⟨hm, hb⟩]
  constructor
  · rfl
  · simp only [Option.map_some', Session.emit, List.drop_left]
    rfl

/-- Witness for C9: the instruction byte 0xC3 on the four-line example
panel. -/
theorem SendInstruction_fourLine_trace_witness :
    (HD44780_SendInstruction exampleSession 0xC3).map (fun s => pinWrites s.trace)
      = some [(17, false), (32, true), (27, true), (26, false), (25, false),
          (19, true), (19, false), (32, false), (27, false), (26, true), (25, true),
          (19, true), (19, false)] := by
  rw [(SendInstruction_fourLine_trace exampleSession exampleBus 0xC3 rfl rfl).1]
  decide

/-- C10: for every value `b` passed to `HD44780_SendData` in eight-line mode
the call succeeds and appends exactly this recording: RS high; bits 7, 6, 5, 4
of `b` on D7, D6, D5, D4; 5 us; bits 3, 2, 1, 0 of `b` on D3, D2, D1, D0; 5 us;
a single enable pulse (E high, 5 us, E low, 5 us); 70 us. Its pin writes are
therefore, in order: RS once, each of the eight data lines once, E high and
low. -/
theorem SendData_eightLine_trace (s : Session) (bus : HD44780_EIGHT_BIT_BUS) (b : Nat)
    (hm : s.displayMode = HD44780_EIGHT_BIT_MODE) (hb : s.eightBus = some bus) :
    HD44780_SendData s b
      = some { s with trace := s.trace ++
          [Event.level s.rsPin true,
           Event.level bus.D7 (b.testBit 7), Event.level bus.D6 (b.testBit 6),
           Event.level bus.D5 (b.testBit 5), Event.level bus.D4 (b.testBit 4),
           Event.delayUs 5,
           Event.level bus.D3 (b.testBit 3), Event.level bus.D2 (b.testBit 2),
           Event.level bus.D1 (b.testBit 1), Event.level bus.D0 (b.testBit 0),
           Event.delayUs 5,
           Event.level s.enablePin true, Event.delayUs 5,
           Event.level s.enablePin false, Event.delayUs 5,
           Event.delayUs 70] }
    ∧ (HD44780_SendData s b).map (fun t => pinWrites (t.trace.drop s.trace.length))
      = some [(s.rsPin, true),
         (bus.D7, b.testBit 7), (bus.D6, b.testBit 6), (bus.D5, b.testBit 5),
         (bus.D4, b.testBit 4), (bus.D3, b.testBit 3), (bus.D2, b.testBit 2),
         (bus.D1, b.testBit 1), (bus.D0, b.testBit 0),
         (s.enablePin, true), (s.enablePin, false)] := by
  rw [SendData_frame s (Wiring.eightLine bus) b ⟨hm, hb⟩]
  constructor
  · rfl
  · simp only [Option.map_some', Session.emit, List.drop_left]
    rfl

/-- Witness for C10: the character code 0x41 on the eight-line example
panel. -/
theorem SendData_eightLine_trace_witness :
    (HD44780_SendData exampleSession8 0x41).map (fun s => pinWrites s.trace)
      = some [(17, true), (32, false), (27, true), (26, false), (25, false),
          (13, false), (12, false), (5, false), (4, true), (19, true), (19, false)] := by
  rw [(SendData_eightLine_trace exampleSession8 exampleBus8 0x41 rfl rfl).1]
  decide

/-! ## Initialisation -/

theorem testBit_div_16 (v i : Nat) : (v / 16).testBit i = v.testBit (i + 4) := by
  have h : v / 16 = v >>> 4 := by
    rw [Nat.shiftRight_eq_div_pow]
  rw [h, Nat.testBit_shiftRight, Nat.add_comm]

/-- In either bus mode `HD44780_Send4BitStartInstruction` records exactly the
reference single-nibble frame of the upper nibble of its argument. -/
theorem Send4BitStartInstruction_frame (s : Session) (w : Wiring) (v : Nat)
    (hw : s.WiredAs w) :
    HD44780_Send4BitStartInstruction s v
      = some (s.emit (nibbleFrame w s.rsPin s.enablePin (v / 16))) := by
  cases w with
  | fourLine bus =>
    obtain ⟨hm, hb⟩ := hw
    simp [HD44780_Send4BitStartInstruction, HD44780_Send4BitsIn4BitMode,
      HD44780_SetUpperNibble, HD44780_Pulse_E, gpio_set_level,
      ets_delay_us, Session.record, Session.emit, nibbleFrame, enablePulse, hm, hb,
      HD44780_FOUR_BIT_MODE, HD44780_EIGHT_BIT_MODE, VOLTAGE_CHANGE_DELAY_US,
      INSTRUCTION_DELAY_US, level_bit7, level_bit6, level_bit5, level_bit4, testBit_div_16]
    rw [← Nat.testBit_zero, testBit_div_16]
  | eightLine bus =>
    obtain ⟨hm, hb⟩ := hw
    simp [HD44780_Send4BitStartInstruction, HD44780_Send4BitsIn4BitMode,
      HD44780_SetUpperNibble, HD44780_Pulse_E, gpio_set_level,
      ets_delay_us, Session.record, Session.emit, nibbleFrame, enablePulse, hm, hb,
      HD44780_EIGHT_BIT_MODE, VOLTAGE_CHANGE_DELAY_US,
      INSTRUCTION_DELAY_US, level_bit7, level_bit6, level_bit5, level_bit4, testBit_div_16]
    rw [← Nat.testBit_zero, testBit_div_16]

theorem vTaskDelay_emit (s : Session) (es : List Event) (t : Nat) :
    vTaskDelay (s.emit es) t = s.emit (es ++ [Event.taskDelay t]) := by
  simp [vTaskDelay, Session.record, Session.emit]

theorem displayMode_emit (s : Session) (es : List Event) :
    (s.emit es).displayMode = s.displayMode := rfl

theorem SendInstruction_emit (s : Session) (w : Wiring) (es : List Event) (v : Nat)
    (hw : s.WiredAs w) :
    HD44780_SendInstruction (s.emit es) v
      = some (s.emit (es ++ byteFrame w s.rsPin s.enablePin false v)) := by
  rw [SendInstruction_frame (s.emit es) w v (wiredAs_emit s w es hw), emit_emit]
  rfl

theorem Send4BitStartInstruction_emit (s : Session) (w : Wiring) (es : List Event) (v : Nat)
    (hw : s.WiredAs w) :
    HD44780_Send4BitStartInstruction (s.emit es) v
      = some (s.emit (es ++ nibbleFrame w s.rsPin s.enablePin (v / 16))) := by
  rw [Send4BitStartInstruction_frame (s.emit es) w v (wiredAs_emit s w es hw), emit_emit]
  rfl

/-- The recording of `HD44780_InitDisplay` on a four-line bus. -/
theorem InitDisplay_fourLine (P : Nat) (s : Session) (bus : HD44780_FOUR_BIT_BUS)
    (hw : s.WiredAs (Wiring.fourLine bus)) :
    HD44780_InitDisplay P s
      = some (s.emit (
          [Event.taskDelay (100 / P)]
          ++ nibbleFrame (Wiring.fourLine bus) s.rsPin s.enablePin 0x3
          ++ [Event.taskDelay (20 / P)]
          ++ nibbleFrame (Wiring.fourLine bus) s.rsPin s.enablePin 0x3
          ++ [Event.taskDelay (20 / P)]
          ++ nibbleFrame (Wiring.fourLine bus) s.rsPin s.enablePin 0x3
          ++ [Event.taskDelay (20 / P)]
          ++ nibbleFrame (Wiring.fourLine bus) s.rsPin s.enablePin 0x2
          ++ byteFrame (Wiring.fourLine bus) s.rsPin s.enablePin false 0x28
          ++ byteFrame (Wiring.fourLine bus) s.rsPin s.enablePin false 0x08
          ++ byteFrame (Wiring.fourLine bus) s.rsPin s.enablePin false 0x01
          ++ [Event.taskDelay (20 / P)]
          ++ byteFrame (Wiring.fourLine bus) s.rsPin s.enablePin false 0x06
          ++ byteFrame (Wiring.fourLine bus) s.rsPin s.enablePin false 0x0C)) := by
  have hm : s.displayMode = HD44780_FOUR_BIT_MODE := hw.1
  have h0 : vTaskDelay s (ONE_HUNDRED_MILLI_DELAY P) = s.emit [Event.taskDelay (100 / P)] := rfl
  unfold HD44780_InitDisplay
  simp only [h0, vTaskDelay_emit, Send4BitStartInstruction_emit _ _ _ _ hw,
    SendInstruction_emit _ _ _ _ hw, Option.bind_eq_bind, Option.some_bind, displayMode_emit,
    hm, if_true, TWENTY_MILLI_DELAY, List.append_assoc]
  rfl

/-- The recording of `HD44780_InitDisplay` on an eight-line bus. -/
theorem InitDisplay_eightLine (P : Nat) (s : Session) (bus : HD44780_EIGHT_BIT_BUS)
    (hw : s.WiredAs (Wiring.eightLine bus)) :
    HD44780_InitDisplay P s
      = some (s.emit (
          [Event.taskDelay (100 / P)]
          ++ nibbleFrame (Wiring.eightLine bus) s.rsPin s.enablePin 0x3
          ++ [Event.taskDelay (20 / P)]
          ++ nibbleFrame (Wiring.eightLine bus) s.rsPin s.enablePin 0x3
          ++ [Event.taskDelay (20 / P)]
          ++ nibbleFrame (Wiring.eightLine bus) s.rsPin s.enablePin 0x3
          ++ [Event.taskDelay (20 / P)]
          ++ byteFrame (Wiring.eightLine bus) s.rsPin s.enablePin false 0x38
          ++ byteFrame (Wiring.eightLine bus) s.rsPin s.enablePin false 0x08
          ++ byteFrame (Wiring.eightLine bus) s.rsPin s.enablePin false 0x01
          ++ [Event.taskDelay (20 / P)]
          ++ byteFrame (Wiring.eightLine bus) s.rsPin s.enablePin false 0x06
          ++ byteFrame (Wiring.eightLine bus) s.rsPin s.enablePin false 0x0C)) := by
  have hm : s.displayMode = HD44780_EIGHT_BIT_MODE := hw.1
  have hne : ¬ (HD44780_EIGHT_BIT_MODE = HD44780_FOUR_BIT_MODE) := by decide
  have h0 : vTaskDelay s (ONE_HUNDRED_MILLI_DELAY P) = s.emit [Event.taskDelay (100 / P)] := rfl
  unfold HD44780_InitDisplay
  simp only [h0, vTaskDelay_emit, Send4BitStartInstruction_emit _ _ _ _ hw,
    SendInstruction_emit _ _ _ _ hw, Option.bind_eq_bind, Option.some_bind, displayMode_emit,
    hm, hne, if_false, TWENTY_MILLI_DELAY, List.append_assoc]
  rfl

/-- The whole recording of `HD44780_initFourBitBus`. -/
theorem initFourBitBus_emit (P : Nat) (s : Session) (bus : HD44780_FOUR_BIT_BUS) :
    HD44780_initFourBitBus P s bus
      = some ((s.withFourBus bus).emit (
          [Event.direction bus.D4, Event.direction bus.D5, Event.direction bus.D6,
           Event.direction bus.D7, Event.direction bus.E, Event.direction bus.RS]
          ++ [Event.taskDelay (100 / P)]
          ++ nibbleFrame (Wiring.fourLine bus) bus.RS bus.E 0x3
          ++ [Event.taskDelay (20 / P)]
          ++ nibbleFrame (Wiring.fourLine bus) bus.RS bus.E 0x3
          ++ [Event.taskDelay (20 / P)]
          ++ nibbleFrame (Wiring.fourLine bus) bus.RS bus.E 0x3
          ++ [Event.taskDelay (20 / P)]
          ++ nibbleFrame (Wiring.fourLine bus) bus.RS bus.E 0x2
          ++ byteFrame (Wiring.fourLine bus) bus.RS bus.E false 0x28
          ++ byteFrame (Wiring.fourLine bus) bus.RS bus.E false 0x08
          ++ byteFrame (Wiring.fourLine bus) bus.RS bus.E false 0x01
          ++ [Event.taskDelay (20 / P)]
          ++ byteFrame (Wiring.fourLine bus) bus.RS bus.E false 0x06
          ++ byteFrame (Wiring.fourLine bus) bus.RS bus.E false 0x0C)) := by
  have hpre : HD44780_initFourBitBus P s bus
      = HD44780_InitDisplay P ((s.withFourBus bus).emit
          [Event.direction bus.D4, Event.direction bus.D5, Event.direction bus.D6,
           Event.direction bus.D7, Event.direction bus.E, Event.direction bus.RS]) := by
    simp [HD44780_initFourBitBus, gpio_set_direction, Session.record, Session.emit,
      Session.withFourBus]
  rw [hpre, InitDisplay_fourLine P _ bus (wiredAs_emit _ _ _ ⟨rfl, rfl⟩), emit_emit]
  simp only [List.append_assoc]
  rfl

/-- C11: for every four-line bus descriptor (and every prior state of the
globals and every tick period), `HD44780_initFourBitBus` sets the globals,
declares the six pins as outputs, and then records exactly: the startup task
delay; three single-nibble wake-up instructions with nibble 0x3, each followed
by a task delay; one single-nibble instruction with nibble 0x2; then the full
instruction frames of 0x28, 0x08, 0x01 (followed by a task delay), 0x06 and
0x0C. Every frame has RS low, and 0x28 is the four-bit, two-row, 5x8-font
function set. -/
theorem initFourBitBus_sequence (P : Nat) (s : Session) (bus : HD44780_FOUR_BIT_BUS) :
    HD44780_initFourBitBus P s bus
      = some ((s.withFourBus bus).emit (
          [Event.direction bus.D4, Event.direction bus.D5, Event.direction bus.D6,
           Event.direction bus.D7, Event.direction bus.E, Event.direction bus.RS]
          ++ [Event.taskDelay (100 / P)]
          ++ nibbleFrame (Wiring.fourLine bus) bus.RS bus.E 0x3
          ++ [Event.taskDelay (20 / P)]
          ++ nibbleFrame (Wiring.fourLine bus) bus.RS bus.E 0x3
          ++ [Event.taskDelay (20 / P)]
          ++ nibbleFrame (Wiring.fourLine bus) bus.RS bus.E 0x3
          ++ [Event.taskDelay (20 / P)]
          ++ nibbleFrame (Wiring.fourLine bus) bus.RS bus.E 0x2
          ++ byteFrame (Wiring.fourLine bus) bus.RS bus.E false 0x28
          ++ byteFrame (Wiring.fourLine bus) bus.RS bus.E false 0x08
          ++ byteFrame (Wiring.fourLine bus) bus.RS bus.E false 0x01
          ++ [Event.taskDelay (20 / P)]
          ++ byteFrame (Wiring.fourLine bus) bus.RS bus.E false 0x06
          ++ byteFrame (Wiring.fourLine bus) bus.RS bus.E false 0x0C))
    ∧ HD44780_FOUR_BIT_MODE ||| HD44780_TWO_ROWS ||| HD44780_FONT_5X8 = 0x28
    ∧ pinWrites (nibbleFrame (Wiring.fourLine bus) bus.RS bus.E 0x3)
      = [(bus.RS, false), (bus.D7, false), (bus.D6, false), (bus.D5, true), (bus.D4, true),
         (bus.E, true), (bus.E, false)]
    ∧ pinWrites (nibbleFrame (Wiring.fourLine bus) bus.RS bus.E 0x2)
      = [(bus.RS, false), (bus.D7, false), (bus.D6, false), (bus.D5, true), (bus.D4, false),
         (bus.E, true), (bus.E, false)] := by
  exact ⟨initFourBitBus_emit P s bus, by decide, by rfl, by rfl⟩

/-- The whole recording of `HD44780_initEightBitBus`. -/
theorem initEightBitBus_emit (P : Nat) (s : Session) (bus : HD44780_EIGHT_BIT_BUS) :
    HD44780_initEightBitBus P s bus
      = some ((s.withEightBus bus).emit (
          [Event.direction bus.D0, Event.direction bus.D1, Event.direction bus.D2,
           Event.direction bus.D3, Event.direction bus.D4, Event.direction bus.D5,
           Event.direction bus.D6, Event.direction bus.D7, Event.direction bus.E,
           Event.direction bus.RS]
          ++ [Event.taskDelay (100 / P)]
          ++ nibbleFrame (Wiring.eightLine bus) bus.RS bus.E 0x3
          ++ [Event.taskDelay (20 / P)]
          ++ nibbleFrame (Wiring.eightLine bus) bus.RS bus.E 0x3
          ++ [Event.taskDelay (20 / P)]
          ++ nibbleFrame (Wiring.eightLine bus) bus.RS bus.E 0x3
          ++ [Event.taskDelay (20 / P)]
          ++ byteFrame (Wiring.eightLine bus) bus.RS bus.E false 0x38
          ++ byteFrame (Wiring.eightLine bus) bus.RS bus.E false 0x08
          ++ byteFrame (Wiring.eightLine bus) bus.RS bus.E false 0x01
          ++ [Event.taskDelay (20 / P)]
          ++ byteFrame (Wiring.eightLine bus) bus.RS bus.E false 0x06
          ++ byteFrame (Wiring.eightLine bus) bus.RS bus.E false 0x0C)) := by
  have hpre : HD44780_initEightBitBus P s bus
      = HD44780_InitDisplay P ((s.withEightBus bus).emit
          [Event.direction bus.D0, Event.direction bus.D1, Event.direction bus.D2,
           Event.direction bus.D3, Event.direction bus.D4, Event.direction bus.D5,
           Event.direction bus.D6, Event.direction bus.D7, Event.direction bus.E,
           Event.direction bus.RS]) := by
    simp [HD44780_initEightBitBus, gpio_set_direction, Session.record, Session.emit,
      Session.withEightBus]
  rw [hpre, InitDisplay_eightLine P _ bus (wiredAs_emit _ _ _ ⟨rfl, rfl⟩), emit_emit]
  simp only [List.append_assoc]
  rfl

/-- C17: for every eight-line bus descriptor (and every prior state of the
globals and every tick period), `HD44780_initEightBitBus` sets the globals,
declares the ten pins as outputs, and then records exactly: the startup task
delay; three single-nibble wake-up instructions with nibble 0x3, each writing
D7..D4 only and pulsing E once, each followed by a task delay; no single-nibble
instruction for four-bit mode; then the full eight-line instruction frames of
0x38, 0x08, 0x01 (followed by a task delay), 0x06 and 0x0C. 0x38 is the
eight-bit, two-row, 5x8-font function set. -/
theorem initEightBitBus_sequence (P : Nat) (s : Session) (bus : HD44780_EIGHT_BIT_BUS) :
    HD44780_initEightBitBus P s bus
      = some ((s.withEightBus bus).emit (
          [Event.direction bus.D0, Event.direction bus.D1, Event.direction bus.D2,
           Event.direction bus.D3, Event.direction bus.D4, Event.direction bus.D5,
           Event.direction bus.D6, Event.direction bus.D7, Event.direction bus.E,
           Event.direction bus.RS]
          ++ [Event.taskDelay (100 / P)]
          ++ nibbleFrame (Wiring.eightLine bus) bus.RS bus.E 0x3
          ++ [Event.taskDelay (20 / P)]
          ++ nibbleFrame (Wiring.eightLine bus) bus.RS bus.E 0x3
          ++ [Event.taskDelay (20 / P)]
          ++ nibbleFrame (Wiring.eightLine bus) bus.RS bus.E 0x3
          ++ [Event.taskDelay (20 / P)]
          ++ byteFrame (Wiring.eightLine bus) bus.RS bus.E false 0x38
          ++ byteFrame (Wiring.eightLine bus) bus.RS bus.E false 0x08
          ++ byteFrame (Wiring.eightLine bus) bus.RS bus.E false 0x01
          ++ [Event.taskDelay (20 / P)]
          ++ byteFrame (Wiring.eightLine bus) bus.RS bus.E false 0x06
          ++ byteFrame (Wiring.eightLine bus) bus.RS bus.E false 0x0C))
    ∧ HD44780_EIGHT_BIT_MODE ||| HD44780_TWO_ROWS ||| HD44780_FONT_5X8 = 0x38
    ∧ pinWrites (nibbleFrame (Wiring.eightLine bus) bus.RS bus.E 0x3)
      = [(bus.RS, false), (bus.D7, false), (bus.D6, false), (bus.D5, true), (bus.D4, true),
         (bus.E, true), (bus.E, false)]
    ∧ pinWrites (byteFrame (Wiring.eightLine bus) bus.RS bus.E false 0x38)
      = [(bus.RS, false), (bus.D7, false), (bus.D6, false), (bus.D5, true), (bus.D4, true),
         (bus.D3, true), (bus.D2, false), (bus.D1, false), (bus.D0, false),
         (bus.E, true), (bus.E, false)] := by
  exact ⟨initEightBitBus_emit P s bus, by decide, by rfl, by rfl⟩

/-! ## Parameterless commands -/

/-- C12: in either bus mode `HD44780_clear` records exactly the instruction
frame (RS low) of the byte 0x01, whose last event is the 70 us instruction
delay, and then, as the final recorded event, one task delay of
`TWENTY_MILLI_DELAY` ticks; nothing is sent as data. -/
theorem clear_sends_clear_then_long_delay (P : Nat) (s : Session) (w : Wiring)
    (hw : s.WiredAs w) :
    HD44780_clear P s
      = some (s.emit (byteFrame w s.rsPin s.enablePin false 0x01
          ++ [Event.taskDelay (TWENTY_MILLI_DELAY P)]))
    ∧ (byteFrame w s.rsPin s.enablePin false 0x01).getLast? = some (Event.delayUs 70)
    ∧ (HD44780_clear P s).map (fun t => (newEvents s t).getLast?)
      = some (some (Event.taskDelay (TWENTY_MILLI_DELAY P))) := by
  have hclear : HD44780_clear P s
      = some (s.emit (byteFrame w s.rsPin s.enablePin false 0x01
          ++ [Event.taskDelay (TWENTY_MILLI_DELAY P)])) := by
    unfold HD44780_clear
    rw [SendInstruction_frame s w _ hw]
    simp only [Option.bind_eq_bind, Option.some_bind, vTaskDelay_emit]
    rfl
  refine ⟨hclear, ?_, ?_⟩
  · cases w <;> rfl
  · rw [hclear]
    simp [newEvents, Session.emit]

/-- Witness for C12: clearing the four-line example panel at a tick period of
10 ms ends with a task delay of 2 ticks. -/
theorem clear_sends_clear_then_long_delay_witness :
    HD44780_clear 10 exampleSession
      = some (exampleSession.emit
          (byteFrame (Wiring.fourLine exampleBus) exampleSession.rsPin exampleSession.enablePin
            false 0x01 ++ [Event.taskDelay 2])) :=
  (clear_sends_clear_then_long_delay 10 exampleSession (Wiring.fourLine exampleBus)
    exampleSession_wired).1

/-- C13: for every state of the globals `HD44780_homeCursor` gives exactly the
result (recording and final state) of `HD44780_setCursorPos(0, 0)`; in either
bus mode, when the configured rows and columns are both at least 0, that is
exactly the instruction frame of the byte 0x80. -/
theorem homeCursor_is_setCursorPos_origin (s : Session) :
    HD44780_homeCursor s = HD44780_setCursorPos s 0 0
    ∧ ∀ w : Wiring, s.WiredAs w → 0 ≤ s.rows → 0 ≤ s.columns →
        HD44780_homeCursor s = some (s.emit (byteFrame w s.rsPin s.enablePin false 0x80)) := by
  refine ⟨rfl, ?_⟩
  intro w hw hr hc
  have hguard : ¬ ((0 : Int) < 0 ∨ (0 : Int) < 0 ∨ 0 > s.columns ∨ 0 > s.rows) := by omega
  unfold HD44780_homeCursor HD44780_setCursorPos
  rw [if_neg hguard, if_pos rfl, SendInstruction_frame s w _ hw]
  rfl

/-- Witness for C13: homing the cursor on the four-line example panel. -/
theorem homeCursor_is_setCursorPos_origin_witness :
    HD44780_homeCursor exampleSession
      = some (exampleSession.emit (byteFrame (Wiring.fourLine exampleBus)
          exampleSession.rsPin exampleSession.enablePin false 0x80)) :=
  (homeCursor_is_setCursorPos_origin exampleSession).2 (Wiring.fourLine exampleBus)
    exampleSession_wired (by decide) (by decide)

/-- C14: for every state of the globals `HD44780_noBlink` and `HD44780_cursor`
give the same result, and so do `HD44780_dispOn` and `HD44780_noCursor`; in
either bus mode the first pair records the instruction frame of 0x0E and the
second pair that of 0x0C. -/
theorem noBlink_cursor_and_dispOn_noCursor_coincide (s : Session) :
    HD44780_noBlink s = HD44780_cursor s
    ∧ HD44780_dispOn s = HD44780_noCursor s
    ∧ ∀ w : Wiring, s.WiredAs w →
        HD44780_noBlink s = some (s.emit (byteFrame w s.rsPin s.enablePin false 0x0E))
        ∧ HD44780_cursor s = some (s.emit (byteFrame w s.rsPin s.enablePin false 0x0E))
        ∧ HD44780_dispOn s = some (s.emit (byteFrame w s.rsPin s.enablePin false 0x0C))
        ∧ HD44780_noCursor s = some (s.emit (byteFrame w s.rsPin s.enablePin false 0x0C)) := by
  refine ⟨rfl, rfl, ?_⟩
  intro w hw
  exact ⟨SendInstruction_frame s w _ hw, SendInstruction_frame s w _ hw,
    SendInstruction_frame s w _ hw, SendInstruction_frame s w _ hw⟩

/-- Witness for C14: the two pairs on the eight-line example panel. -/
theorem noBlink_cursor_and_dispOn_noCursor_coincide_witness :
    HD44780_noBlink exampleSession8
      = some (exampleSession8.emit (byteFrame (Wiring.eightLine exampleBus8)
          exampleSession8.rsPin exampleSession8.enablePin false 0x0E))
    ∧ HD44780_dispOn exampleSession8
      = some (exampleSession8.emit (byteFrame (Wiring.eightLine exampleBus8)
          exampleSession8.rsPin exampleSession8.enablePin false 0x0C)) :=
  have h := (noBlink_cursor_and_dispOn_noCursor_coincide exampleSession8).2.2
    (Wiring.eightLine exampleBus8) exampleSession8_wired
  ⟨h.1, h.2.2.1⟩

/-- C15: in either bus mode and whatever the configured geometry, each of
`HD44780_shiftDispLeft`, `HD44780_shiftDispRight`, `HD44780_blink` and
`HD44780_dispOff` records exactly one instruction frame (RS low) and nothing
else: of 0x18, 0x1C, 0x0F and 0x08 respectively. -/
theorem parameterless_commands_send_one_instruction (s : Session) (w : Wiring)
    (hw : s.WiredAs w) :
    HD44780_shiftDispLeft s = some (s.emit (byteFrame w s.rsPin s.enablePin false 0x18))
    ∧ HD44780_shiftDispRight s = some (s.emit (byteFrame w s.rsPin s.enablePin false 0x1C))
    ∧ HD44780_blink s = some (s.emit (byteFrame w s.rsPin s.enablePin false 0x0F))
    ∧ HD44780_dispOff s = some (s.emit (byteFrame w s.rsPin s.enablePin false 0x08)) :=
  ⟨SendInstruction_frame s w _ hw, SendInstruction_frame s w _ hw,
    SendInstruction_frame s w _ hw, SendInstruction_frame s w _ hw⟩

/-- Witness for C15: the four commands on the four-line example panel. -/
theorem parameterless_commands_send_one_instruction_witness :
    HD44780_shiftDispLeft exampleSession
      = some (exampleSession.emit (byteFrame (Wiring.fourLine exampleBus)
          exampleSession.rsPin exampleSession.enablePin false 0x18))
    ∧ HD44780_shiftDispRight exampleSession
      = some (exampleSession.emit (byteFrame (Wiring.fourLine exampleBus)
          exampleSession.rsPin exampleSession.enablePin false 0x1C))
    ∧ HD44780_blink exampleSession
      = some (exampleSession.emit (byteFrame (Wiring.fourLine exampleBus)
          exampleSession.rsPin exampleSession.enablePin false 0x0F))
    ∧ HD44780_dispOff exampleSession
      = some (exampleSession.emit (byteFrame (Wiring.fourLine exampleBus)
          exampleSession.rsPin exampleSession.enablePin false 0x08)) :=
  parameterless_commands_send_one_instruction exampleSession (Wiring.fourLine exampleBus)
    exampleSession_wired

/-! ## Explicit forms of the reference frames -/

theorem nibbleFrame_four_3 (bus : HD44780_FOUR_BIT_BUS) (r e : gpio_num_t) :
    nibbleFrame (Wiring.fourLine bus) r e 0x3
      = [Event.level r false, Event.level bus.D7 false, Event.level bus.D6 false,
         Event.level bus.D5 true, Event.level bus.D4 true, Event.delayUs 5,
         Event.level e true, Event.delayUs 5, Event.level e false, Event.delayUs 5,
         Event.delayUs 70, Event.delayUs 70] := rfl

theorem nibbleFrame_four_2 (bus : HD44780_FOUR_BIT_BUS) (r e : gpio_num_t) :
    nibbleFrame (Wiring.fourLine bus) r e 0x2
      = [Event.level r false, Event.level bus.D7 false, Event.level bus.D6 false,
         Event.level bus.D5 true, Event.level bus.D4 false, Event.delayUs 5,
         Event.level e true, Event.delayUs 5, Event.level e false, Event.delayUs 5,
         Event.delayUs 70, Event.delayUs 70] := rfl

theorem nibbleFrame_eight_3 (bus : HD44780_EIGHT_BIT_BUS) (r e : gpio_num_t) :
    nibbleFrame (Wiring.eightLine bus) r e 0x3
      = [Event.level r false, Event.level bus.D7 false, Event.level bus.D6 false,
         Event.level bus.D5 true, Event.level bus.D4 true, Event.delayUs 5,
         Event.level e true, Event.delayUs 5, Event.level e false, Event.delayUs 5,
         Event.delayUs 70, Event.delayUs 70] := rfl

theorem byteFrame_four_explicit (bus : HD44780_FOUR_BIT_BUS) (r e : gpio_num_t) (rs : Bool)
    (b : Nat) :
    byteFrame (Wiring.fourLine bus) r e rs b
      = [Event.level r rs, Event.level bus.D7 (b.testBit 7), Event.level bus.D6 (b.testBit 6),
         Event.level bus.D5 (b.testBit 5), Event.level bus.D4 (b.testBit 4), Event.delayUs 5,
         Event.level e true, Event.delayUs 5, Event.level e false, Event.delayUs 5,
         Event.level bus.D7 (b.testBit 3), Event.level bus.D6 (b.testBit 2),
         Event.level bus.D5 (b.testBit 1), Event.level bus.D4 (b.testBit 0), Event.delayUs 5,
         Event.level e true, Event.delayUs 5, Event.level e false, Event.delayUs 5,
         Event.delayUs 70] := rfl

theorem byteFrame_eight_explicit (bus : HD44780_EIGHT_BIT_BUS) (r e : gpio_num_t) (rs : Bool)
    (b : Nat) :
    byteFrame (Wiring.eightLine bus) r e rs b
      = [Event.level r rs, Event.level bus.D7 (b.testBit 7), Event.level bus.D6 (b.testBit 6),
         Event.level bus.D5 (b.testBit 5), Event.level bus.D4 (b.testBit 4), Event.delayUs 5,
         Event.level bus.D3 (b.testBit 3), Event.level bus.D2 (b.testBit 2),
         Event.level bus.D1 (b.testBit 1), Event.level bus.D0 (b.testBit 0), Event.delayUs 5,
         Event.level e true, Event.delayUs 5, Event.level e false, Event.delayUs 5,
         Event.delayUs 70] := rfl

theorem newEvents_emit (s : Session) (es : List Event) : newEvents s (s.emit es) = es := by
  simp [newEvents, Session.emit]

theorem newEvents_withFourBus_emit (s : Session) (bus : HD44780_FOUR_BIT_BUS)
    (es : List Event) : newEvents s ((s.withFourBus bus).emit es) = es := by
  simp [newEvents, Session.emit, Session.withFourBus]

theorem newEvents_withEightBus_emit (s : Session) (bus : HD44780_EIGHT_BIT_BUS)
    (es : List Event) : newEvents s ((s.withEightBus bus).emit es) = es := by
  simp [newEvents, Session.emit, Session.withEightBus]

/-! ## Delays around the wake-up instructions -/

set_option maxHeartbeats 2000000 in
set_option maxRecDepth 100000 in
/-- On a four-line bus, each of the three wake-up frames of the initialisation
is followed by one task delay of `20 / P` ticks and no other delay. -/
theorem initFourBitBus_wakeup_delays (P : Nat) (s : Session) (bus : HD44780_FOUR_BIT_BUS) :
    (HD44780_initFourBitBus P s bus).map
        (fun t => delaysAfter (nibbleFrame (Wiring.fourLine bus) bus.RS bus.E 0x3)
          (newEvents s t))
      = some [[Event.taskDelay (20 / P)], [Event.taskDelay (20 / P)],
          [Event.taskDelay (20 / P)]] := by
  rw [initFourBitBus_emit P s bus]
  simp only [Option.map_some', newEvents_withFourBus_emit]
  simp only [nibbleFrame_four_3, nibbleFrame_four_2, byteFrame_four_explicit,
    List.cons_append, List.nil_append, List.append_assoc]
  simp only [delaysAfter, List.length_cons, List.length_nil, List.take_succ_cons, List.take_zero,
    List.drop_succ_cons, List.drop_zero, Nat.reduceAdd, List.cons.injEq, Event.level.injEq,
    Event.delayUs.injEq, reduceCtorEq, and_false, false_and, and_true, true_and, if_false,
    Nat.reduceEqDiff, List.take_nil, List.drop_nil, Bool.false_eq_true, Bool.true_eq_false,
    if_true, and_self, List.takeWhile_cons,
    List.takeWhile_nil, Event.isDelay, ite_self]

set_option maxHeartbeats 2000000 in
set_option maxRecDepth 100000 in
/-- On an eight-line bus, each of the three wake-up frames of the
initialisation is followed by one task delay of `20 / P` ticks and no other
delay. -/
theorem initEightBitBus_wakeup_delays (P : Nat) (s : Session) (bus : HD44780_EIGHT_BIT_BUS) :
    (HD44780_initEightBitBus P s bus).map
        (fun t => delaysAfter (nibbleFrame (Wiring.eightLine bus) bus.RS bus.E 0x3)
          (newEvents s t))
      = some [[Event.taskDelay (20 / P)], [Event.taskDelay (20 / P)],
          [Event.taskDelay (20 / P)]] := by
  rw [initEightBitBus_emit P s bus]
  simp only [Option.map_some', newEvents_withEightBus_emit]
  simp only [nibbleFrame_eight_3, byteFrame_eight_explicit,
    List.cons_append, List.nil_append, List.append_assoc]
  simp only [delaysAfter, List.length_cons, List.length_nil, List.take_succ_cons, List.take_zero,
    List.drop_succ_cons, List.drop_zero, Nat.reduceAdd, List.cons.injEq, Event.level.injEq,
    Event.delayUs.injEq, reduceCtorEq, and_false, false_and, and_true, true_and, if_false,
    Nat.reduceEqDiff, List.take_nil, List.drop_nil, Bool.false_eq_true, Bool.true_eq_false,
    if_true, and_self, List.takeWhile_cons,
    List.takeWhile_nil, Event.isDelay, ite_self]

/-- The first delay recorded by either init function is the startup task
delay of `100 / P` ticks. -/
theorem init_first_delay (P : Nat) (s : Session) :
    (∀ bus : HD44780_FOUR_BIT_BUS,
      (HD44780_initFourBitBus P s bus).map (fun t => (newEvents s t).find? Event.isDelay)
        = some (some (Event.taskDelay (100 / P))))
    ∧ (∀ bus : HD44780_EIGHT_BIT_BUS,
      (HD44780_initEightBitBus P s bus).map (fun t => (newEvents s t).find? Event.isDelay)
        = some (some (Event.taskDelay (100 / P)))) := by
  constructor
  · intro bus
    rw [initFourBitBus_emit P s bus]
    simp [newEvents_withFourBus_emit, Event.isDelay]
  · intro bus
    rw [initEightBitBus_emit P s bus]
    simp [newEvents_withEightBus_emit, Event.isDelay]

/-- C18 (as amended): in either bus mode, the first delay of the
initialisation is the startup task delay of `ONE_HUNDRED_MILLI_DELAY` ticks,
and each of the three wake-up instructions (whose own recording ends with the
70 us instruction delay, twice) is followed by the same task delay of
`TWENTY_MILLI_DELAY` ticks: the three delays after the wake-ups are all
equal. -/
theorem init_wakeup_delays_all_long (P : Nat) (s : Session) :
    (∀ bus : HD44780_FOUR_BIT_BUS,
      (HD44780_initFourBitBus P s bus).map (fun t => (newEvents s t).find? Event.isDelay)
        = some (some (Event.taskDelay (ONE_HUNDRED_MILLI_DELAY P)))
      ∧ (HD44780_initFourBitBus P s bus).map
          (fun t => delaysAfter (nibbleFrame (Wiring.fourLine bus) bus.RS bus.E 0x3)
            (newEvents s t))
        = some [[Event.taskDelay (TWENTY_MILLI_DELAY P)],
            [Event.taskDelay (TWENTY_MILLI_DELAY P)],
            [Event.taskDelay (TWENTY_MILLI_DELAY P)]])
    ∧ (∀ bus : HD44780_EIGHT_BIT_BUS,
      (HD44780_initEightBitBus P s bus).map (fun t => (newEvents s t).find? Event.isDelay)
        = some (some (Event.taskDelay (ONE_HUNDRED_MILLI_DELAY P)))
      ∧ (HD44780_initEightBitBus P s bus).map
          (fun t => delaysAfter (nibbleFrame (Wiring.eightLine bus) bus.RS bus.E 0x3)
            (newEvents s t))
        = some [[Event.taskDelay (TWENTY_MILLI_DELAY P)],
            [Event.taskDelay (TWENTY_MILLI_DELAY P)],
            [Event.taskDelay (TWENTY_MILLI_DELAY P)]]) :=
  ⟨fun bus => ⟨(init_first_delay P s).1 bus, initFourBitBus_wakeup_delays P s bus⟩,
   fun bus => ⟨(init_first_delay P s).2 bus, initEightBitBus_wakeup_delays P s bus⟩⟩

/-- C18 (the claim as stated fails): initialising the four-line example panel
at a tick period of 10 ms, the delay recorded after each of the three wake-up
instructions is the task delay of 2 ticks (20 ms), also after the third one;
so it is not the case that the three delays differ. -/
theorem init_wakeup_delays_do_not_shrink :
    (HD44780_initFourBitBus 10 Session.boot exampleBus).map
        (fun t => delaysAfter (nibbleFrame (Wiring.fourLine exampleBus) 17 19 0x3)
          (newEvents Session.boot t))
      = some [[Event.taskDelay 2], [Event.taskDelay 2], [Event.taskDelay 2]]
    ∧ ¬ ∃ d1 d2 d3 : List Event,
        (HD44780_initFourBitBus 10 Session.boot exampleBus).map
            (fun t => delaysAfter (nibbleFrame (Wiring.fourLine exampleBus) 17 19 0x3)
              (newEvents Session.boot t))
          = some [d1, d2, d3]
        ∧ ¬ (d1 = d2 ∧ d2 = d3) := by
  have h := initFourBitBus_wakeup_delays 10 Session.boot exampleBus
  refine ⟨h, ?_⟩
  rintro ⟨d1, d2, d3, hd, hne⟩
  have h' : (HD44780_initFourBitBus 10 Session.boot exampleBus).map
        (fun t => delaysAfter (nibbleFrame (Wiring.fourLine exampleBus) 17 19 0x3)
          (newEvents Session.boot t))
      = some [[Event.taskDelay 2], [Event.taskDelay 2], [Event.taskDelay 2]] := h
  rw [h'] at hd
  simp only [Option.some.injEq, List.cons.injEq, and_true] at hd
  obtain ⟨h1, h2, h3⟩ := hd
  exact hne ⟨by rw [← h1, ← h2], by rw [← h2, ← h3]⟩

/-! ## Tick arithmetic -/

/-- C19 (as amended): for every positive tick period `P` in milliseconds, the
delay of `TWENTY_MILLI_DELAY = 20 / P` ticks lasts at least 20 ms exactly when
`P` divides 20, and then it lasts exactly 20 ms; for every positive `P` it
lasts at most 20 ms and falls short of 20 ms by less than one tick period. -/
theorem twenty_milli_delay_duration (P : Nat) (hP : 0 < P) :
    (20 ≤ TWENTY_MILLI_DELAY P * P ↔ P ∣ 20)
    ∧ (P ∣ 20 → TWENTY_MILLI_DELAY P * P = 20)
    ∧ TWENTY_MILLI_DELAY P * P ≤ 20
    ∧ 20 < TWENTY_MILLI_DELAY P * P + P := by
  unfold TWENTY_MILLI_DELAY
  have hle : 20 / P * P ≤ 20 := Nat.div_mul_le_self 20 P
  have hdvd : P ∣ 20 → 20 / P * P = 20 := fun h => Nat.div_mul_cancel h
  have hlt : 20 < 20 / P * P + P := by
    have h1 := Nat.div_add_mod 20 P
    have h2 := Nat.mod_lt 20 hP
    rw [Nat.mul_comm] at h1
    omega
  refine ⟨⟨fun h => ?_, fun h => by rw [hdvd h]⟩, hdvd, hle, hlt⟩
  have heq : 20 / P * P = 20 := Nat.le_antisymm hle h
  exact ⟨20 / P, by rw [Nat.mul_comm]; exact heq.symm⟩

/-- Witness for C19 (as amended): a tick period of 10 ms gives 2 ticks, that
is, exactly 20 ms. -/
theorem twenty_milli_delay_duration_witness :
    TWENTY_MILLI_DELAY 10 * 10 = 20 :=
  (twenty_milli_delay_duration 10 (by decide)).2.1 (by decide)

/-- C19 (the claim as stated fails): at a tick period of 3 ms the delay is 6
ticks, that is, 18 ms, which is less than 20 ms. -/
theorem twenty_milli_delay_short_at_three :
    0 < 3 ∧ TWENTY_MILLI_DELAY 3 = 6 ∧ ¬ (20 ≤ TWENTY_MILLI_DELAY 3 * 3) := by
  decide

/-! ## Pulses and settle delays of one transmission -/

/-- C20: in either bus mode, for every value `v` and for both
`HD44780_SendInstruction` (`rs = false`) and `HD44780_SendData` (`rs = true`),
the recording of the transmission is: RS, then on a four-line bus bits on
D7..D4, one pulse, bits on D7..D4, one pulse, and on an eight-line bus the
bits on D7..D0 followed by one pulse; every pulse has the shape E high, 5 us,
E low, 5 us; there are two pulses on a four-line bus and one on an eight-line
bus; the 70 us delay occurs once, as the last event (so not between the two
nibbles); and E is left low. -/
theorem send_pulses_and_settle_delay (s : Session) (w : Wiring) (v : Nat) (rs : Bool)
    (hw : s.WiredAs w) :
    (if rs then HD44780_SendData s v else HD44780_SendInstruction s v)
      = some (s.emit (
          match w with
          | Wiring.fourLine bus =>
            [Event.level s.rsPin rs]
            ++ [Event.level bus.D7 (v.testBit 7), Event.level bus.D6 (v.testBit 6),
                Event.level bus.D5 (v.testBit 5), Event.level bus.D4 (v.testBit 4),
                Event.delayUs 5]
            ++ [Event.level s.enablePin true, Event.delayUs 5,
                Event.level s.enablePin false, Event.delayUs 5]
            ++ [Event.level bus.D7 (v.testBit 3), Event.level bus.D6 (v.testBit 2),
                Event.level bus.D5 (v.testBit 1), Event.level bus.D4 (v.testBit 0),
                Event.delayUs 5]
            ++ [Event.level s.enablePin true, Event.delayUs 5,
                Event.level s.enablePin false, Event.delayUs 5]
            ++ [Event.delayUs 70]
          | Wiring.eightLine bus =>
            [Event.level s.rsPin rs]
            ++ [Event.level bus.D7 (v.testBit 7), Event.level bus.D6 (v.testBit 6),
                Event.level bus.D5 (v.testBit 5), Event.level bus.D4 (v.testBit 4),
                Event.delayUs 5,
                Event.level bus.D3 (v.testBit 3), Event.level bus.D2 (v.testBit 2),
                Event.level bus.D1 (v.testBit 1), Event.level bus.D0 (v.testBit 0),
                Event.delayUs 5]
            ++ [Event.level s.enablePin true, Event.delayUs 5,
                Event.level s.enablePin false, Event.delayUs 5]
            ++ [Event.delayUs 70]))
    ∧ (if rs then HD44780_SendData s v else HD44780_SendInstruction s v).map
        (fun t => occurrences
          [Event.level s.enablePin true, Event.delayUs 5,
           Event.level s.enablePin false, Event.delayUs 5] (newEvents s t))
      = some (match w with
          | Wiring.fourLine _ => 2
          | Wiring.eightLine _ => 1)
    ∧ (if rs then HD44780_SendData s v else HD44780_SendInstruction s v).map
        (fun t => (newEvents s t).count (Event.delayUs 70)) = some 1
    ∧ (if rs then HD44780_SendData s v else HD44780_SendInstruction s v).map
        (fun t => (newEvents s t).getLast?) = some (some (Event.delayUs 70))
    ∧ (if rs then HD44780_SendData s v else HD44780_SendInstruction s v).map
        (fun t => lastLevel s.enablePin (newEvents s t)) = some (some false) := by
  have hsend : (if rs then HD44780_SendData s v else HD44780_SendInstruction s v)
      = some (s.emit (byteFrame w s.rsPin s.enablePin rs v)) := by
    cases rs
    · simpa using SendInstruction_frame s w v hw
    · simpa using SendData_frame s w v hw
  rw [hsend]
  simp only [Option.map_some', newEvents_emit]
  cases w with
  | fourLine bus =>
    rw [byteFrame_four_explicit]
    refine ⟨rfl, ?_, ?_, ?_, ?_⟩
    · simp [occurrences]
    · simp [List.count_cons]
    · simp
    · simp [lastLevel, pinWrites]
  | eightLine bus =>
    rw [byteFrame_eight_explicit]
    refine ⟨rfl, ?_, ?_, ?_, ?_⟩
    · simp [occurrences]
    · simp [List.count_cons]
    · simp
    · simp [lastLevel, pinWrites]

/-- Witness for C20: sending the instruction 0x28 on the four-line example
panel records two pulses and ends with the single 70 us delay. -/
theorem send_pulses_and_settle_delay_witness :
    (HD44780_SendInstruction exampleSession 0x28).map
        (fun t => occurrences [Event.level 19 true, Event.delayUs 5,
          Event.level 19 false, Event.delayUs 5] (newEvents exampleSession t)) = some 2
    ∧ (HD44780_SendInstruction exampleSession 0x28).map
        (fun t => (newEvents exampleSession t).getLast?) = some (some (Event.delayUs 70)) :=
  have h := send_pulses_and_settle_delay exampleSession (Wiring.fourLine exampleBus) 0x28 false
    exampleSession_wired
  ⟨h.2.1, h.2.2.2.1⟩

/-! ## The globals after initialisation -/

/-- A counted loop reading `buf[i]` for the indices of a middle segment of the
buffer visits the elements of that segment in order. -/
theorem foldlM_index_middle (f : Session → Nat → Option Session) (pre post rest : List Nat)
    (s : Session) :
    (List.range' pre.length post.length).foldlM
        (fun s i => do
          let c ← (pre ++ post ++ rest)[i]?
          f s c) s
      = post.foldlM f s := by
  induction post generalizing pre s with
  | nil => simp
  | cons a t ih =>
    have hlen : (pre ++ [a]).length = pre.length + 1 := by simp
    have happ : pre ++ a :: t ++ rest = (pre ++ [a]) ++ t ++ rest := by simp
    simp only [List.length_cons, List.range'_succ, List.foldlM_cons]
    have hget : (pre ++ a :: t ++ rest)[pre.length]? = some a := by
      rw [List.append_assoc, List.getElem?_append_right (Nat.le_refl _)]
      simp
    rw [hget]
    simp only [Option.bind_eq_bind, Option.some_bind]
    congr 1
    funext s1
    have h := ih (pre ++ [a]) s1
    rw [hlen, ← happ] at h
    exact h

/-- A counted loop over the first `n` indices of a buffer of at least `n`
elements visits its first `n` elements in order. -/
theorem foldlM_index_take (f : Session → Nat → Option Session) (data : List Nat) (n : Nat)
    (hn : n ≤ data.length) (s : Session) :
    (List.range n).foldlM
        (fun s i => do
          let c ← data[i]?
          f s c) s
      = (data.take n).foldlM f s := by
  have h := foldlM_index_middle f [] (data.take n) (data.drop n) s
  have hlen : (data.take n).length = n := by simp [hn]
  simp only [List.nil_append, List.take_append_drop, List.length_nil, hlen] at h
  simpa [List.range_eq_range'] using h

theorem toInt32_toNat_le (n : Nat) : (toInt32 n).toNat ≤ n := by
  unfold toInt32
  have h := Nat.mod_le n 4294967296
  split <;> omega

/-- In either bus mode `HD44780_print` succeeds on every string and only adds
events to the recording. -/
theorem print_emit (charIsSigned : Bool) (s : Session) (w : Wiring) (data : List Nat)
    (hw : s.WiredAs w) :
    ∃ es, HD44780_print charIsSigned s data = some (s.emit es) := by
  unfold HD44780_print
  simp only []
  rw [foldlM_index_take (fun s c => HD44780_SendData s (toUShort (charValue charIsSigned c)))
    data _ (toInt32_toNat_le data.length)]
  rw [foldlM_SendData w (fun c => toUShort (charValue charIsSigned c)) _ s hw]
  exact ⟨_, rfl⟩

/-- In either bus mode `HD44780_setCursorPos` succeeds on every position and
only adds events to the recording. -/
theorem setCursorPos_emit (s : Session) (w : Wiring) (x y : Int) (hw : s.WiredAs w) :
    ∃ es, HD44780_setCursorPos s x y = some (s.emit es) := by
  unfold HD44780_setCursorPos
  split
  · exact ⟨[], by rw [emit_nil]⟩
  · split
    · exact ⟨_, SendInstruction_frame s w _ hw⟩
    · split
      · exact ⟨_, SendInstruction_frame s w _ hw⟩
      · split
        · exact ⟨_, SendInstruction_frame s w _ hw⟩
        · split
          · exact ⟨_, SendInstruction_frame s w _ hw⟩
          · exact ⟨[], by rw [emit_nil]⟩

/-- In either bus mode `HD44780_clear` records the instruction frame of 0x01
and then the task delay of `TWENTY_MILLI_DELAY` ticks. -/
theorem clear_frame (P : Nat) (s : Session) (w : Wiring) (hw : s.WiredAs w) :
    HD44780_clear P s
      = some (s.emit (byteFrame w s.rsPin s.enablePin false 0x01
          ++ [Event.taskDelay (TWENTY_MILLI_DELAY P)])) := by
  unfold HD44780_clear
  rw [SendInstruction_frame s w _ hw]
  simp only [Option.bind_eq_bind, Option.some_bind, vTaskDelay_emit]
  rfl

/-- In either bus mode every call of a public function other than init
succeeds and only adds events to the recording. -/
theorem Op.run_emit (P : Nat) (charIsSigned : Bool) (s : Session) (w : Wiring) (op : Op)
    (hw : s.WiredAs w) :
    ∃ es, op.run P charIsSigned s = some (s.emit es) := by
  cases op with
  | print data => exact print_emit charIsSigned s w data hw
  | clear => exact ⟨_, clear_frame P s w hw⟩
  | setCursorPos x y => exact setCursorPos_emit s w x y hw
  | homeCursor => exact setCursorPos_emit s w 0 0 hw
  | createChar slot glyph =>
    show ∃ es, HD44780_createChar s slot (List.ofFn glyph) = some (s.emit es)
    by_cases hslot : slot < 8
    · exact ⟨_, createChar_frames s w slot _ hw hslot (by simp)⟩
    · refine ⟨[], ?_⟩
      unfold HD44780_createChar
      rw [if_neg hslot, emit_nil]
  | writeChar slot =>
    show ∃ es, HD44780_writeChar s slot = some (s.emit es)
    by_cases hslot : slot < 8
    · exact ⟨_, writeChar_frames s w slot hw hslot⟩
    · refine ⟨[], ?_⟩
      unfold HD44780_writeChar
      rw [if_neg hslot, emit_nil]
  | shiftDispLeft => exact ⟨_, SendInstruction_frame s w _ hw⟩
  | shiftDispRight => exact ⟨_, SendInstruction_frame s w _ hw⟩
  | blink => exact ⟨_, SendInstruction_frame s w _ hw⟩
  | noBlink => exact ⟨_, SendInstruction_frame s w _ hw⟩
  | cursor => exact ⟨_, SendInstruction_frame s w _ hw⟩
  | noCursor => exact ⟨_, SendInstruction_frame s w _ hw⟩
  | dispOff => exact ⟨_, SendInstruction_frame s w _ hw⟩
  | dispOn => exact ⟨_, SendInstruction_frame s w _ hw⟩

/-- In either bus mode every sequence of calls of public functions other than
init succeeds and only adds events to the recording. -/
theorem runOps_emit (P : Nat) (charIsSigned : Bool) (w : Wiring) (ops : List Op) (s : Session)
    (hw : s.WiredAs w) :
    ∃ es, runOps P charIsSigned s ops = some (s.emit es) := by
  induction ops generalizing s with
  | nil => exact ⟨[], by simp [runOps, emit_nil]⟩
  | cons op rest ih =>
    obtain ⟨es1, h1⟩ := Op.run_emit P charIsSigned s w op hw
    obtain ⟨es2, h2⟩ := ih (s.emit es1) (wiredAs_emit s w es1 hw)
    refine ⟨es1 ++ es2, ?_⟩
    unfold runOps at h2 ⊢
    rw [List.foldlM_cons, h1]
    simp only [Option.bind_eq_bind, Option.some_bind]
    rw [h2, emit_emit]

/-- C16: for every prior state of the globals, every tick period, either
signedness of `char`, and every sequence of calls of the public functions
other than init (print, clear, setCursorPos, homeCursor, createChar,
writeChar, the shifts and the visibility toggles, with arguments of any
value): the init call succeeds and sets `displayMode`, `rows`, `columns`, the
bus pointer and the cached RS and E pins from the descriptor; the sequence of
calls then succeeds, and in the state it reaches all of these, and the other
bus pointer, are equal to what they were right after the init call. -/
theorem globals_fixed_after_init (P : Nat) (charIsSigned : Bool) (s0 : Session)
    (ops : List Op) :
    (∀ bus : HD44780_FOUR_BIT_BUS, ∃ s1 s2,
        HD44780_initFourBitBus P s0 bus = some s1
        ∧ runOps P charIsSigned s1 ops = some s2
        ∧ (s1.displayMode = HD44780_FOUR_BIT_MODE ∧ s1.rows = bus.rows
            ∧ s1.columns = bus.columns ∧ s1.fourBus = some bus
            ∧ s1.rsPin = bus.RS ∧ s1.enablePin = bus.E)
        ∧ (s2.displayMode = s1.displayMode ∧ s2.rows = s1.rows ∧ s2.columns = s1.columns
            ∧ s2.fourBus = s1.fourBus ∧ s2.eightBus = s1.eightBus
            ∧ s2.rsPin = s1.rsPin ∧ s2.enablePin = s1.enablePin))
    ∧ (∀ bus : HD44780_EIGHT_BIT_BUS, ∃ s1 s2,
        HD44780_initEightBitBus P s0 bus = some s1
        ∧ runOps P charIsSigned s1 ops = some s2
        ∧ (s1.displayMode = HD44780_EIGHT_BIT_MODE ∧ s1.rows = bus.rows
            ∧ s1.columns = bus.columns ∧ s1.eightBus = some bus
            ∧ s1.rsPin = bus.RS ∧ s1.enablePin = bus.E)
        ∧ (s2.displayMode = s1.displayMode ∧ s2.rows = s1.rows ∧ s2.columns = s1.columns
            ∧ s2.fourBus = s1.fourBus ∧ s2.eightBus = s1.eightBus
            ∧ s2.rsPin = s1.rsPin ∧ s2.enablePin = s1.enablePin)) := by
  constructor
  · intro bus
    have hw : ((s0.withFourBus bus).emit
        ([Event.direction bus.D4, Event.direction bus.D5, Event.direction bus.D6,
           Event.direction bus.D7, Event.direction bus.E, Event.direction bus.RS]
          ++ [Event.taskDelay (100 / P)]
          ++ nibbleFrame (Wiring.fourLine bus) bus.RS bus.E 0x3
          ++ [Event.taskDelay (20 / P)]
          ++ nibbleFrame (Wiring.fourLine bus) bus.RS bus.E 0x3
          ++ [Event.taskDelay (20 / P)]
          ++ nibbleFrame (Wiring.fourLine bus) bus.RS bus.E 0x3
          ++ [Event.taskDelay (20 / P)]
          ++ nibbleFrame (Wiring.fourLine bus) bus.RS bus.E 0x2
          ++ byteFrame (Wiring.fourLine bus) bus.RS bus.E false 0x28
          ++ byteFrame (Wiring.fourLine bus) bus.RS bus.E false 0x08
          ++ byteFrame (Wiring.fourLine bus) bus.RS bus.E false 0x01
          ++ [Event.taskDelay (20 / P)]
          ++ byteFrame (Wiring.fourLine bus) bus.RS bus.E false 0x06
          ++ byteFrame (Wiring.fourLine bus) bus.RS bus.E false 0x0C)).WiredAs
        (Wiring.fourLine bus) := ⟨rfl, rfl⟩
    obtain ⟨es, hes⟩ := runOps_emit P charIsSigned (Wiring.fourLine bus) ops _ hw
    exact ⟨_, _, initFourBitBus_emit P s0 bus, hes,
      ⟨rfl, rfl, rfl, rfl, rfl, rfl⟩, ⟨rfl, rfl, rfl, rfl, rfl, rfl, rfl⟩⟩
  · intro bus
    have hw : ((s0.withEightBus bus).emit
        ([Event.direction bus.D0, Event.direction bus.D1, Event.direction bus.D2,
           Event.direction bus.D3, Event.direction bus.D4, Event.direction bus.D5,
           Event.direction bus.D6, Event.direction bus.D7, Event.direction bus.E,
           Event.direction bus.RS]
          ++ [Event.taskDelay (100 / P)]
          ++ nibbleFrame (Wiring.eightLine bus) bus.RS bus.E 0x3
          ++ [Event.taskDelay (20 / P)]
          ++ nibbleFrame (Wiring.eightLine bus) bus.RS bus.E 0x3
          ++ [Event.taskDelay (20 / P)]
          ++ nibbleFrame (Wiring.eightLine bus) bus.RS bus.E 0x3
          ++ [Event.taskDelay (20 / P)]
          ++ byteFrame (Wiring.eightLine bus) bus.RS bus.E false 0x38
          ++ byteFrame (Wiring.eightLine bus) bus.RS bus.E false 0x08
          ++ byteFrame (Wiring.eightLine bus) bus.RS bus.E false 0x01
          ++ [Event.taskDelay (20 / P)]
          ++ byteFrame (Wiring.eightLine bus) bus.RS bus.E false 0x06
          ++ byteFrame (Wiring.eightLine bus) bus.RS bus.E false 0x0C)).WiredAs
        (Wiring.eightLine bus) := ⟨rfl, rfl⟩
    obtain ⟨es, hes⟩ := runOps_emit P charIsSigned (Wiring.eightLine bus) ops _ hw
    exact ⟨_, _, initEightBitBus_emit P s0 bus, hes,
      ⟨rfl, rfl, rfl, rfl, rfl, rfl⟩, ⟨rfl, rfl, rfl, rfl, rfl, rfl, rfl⟩⟩

/-! ## Acceptance of cursor positions -/

theorem byteFrame_ne_nil (w : Wiring) (r e : gpio_num_t) (rs : Bool) (b : Nat) :
    byteFrame w r e rs b ≠ [] := by
  cases w <;> simp [byteFrame]

/-- C23: in either bus mode `HD44780_setCursorPos(x, y)` records something if
and only if `0 <= x <= columns`, `0 <= y <= rows` and `y <= 3`, and then it
records exactly one instruction frame; so `x = columns` and `y = rows` are
accepted, and a row `y >= 4` that passes the bounds check records nothing. -/
theorem setCursorPos_transmits_iff (s : Session) (w : Wiring) (x y : Int)
    (hw : s.WiredAs w) :
    ((0 ≤ x ∧ x ≤ s.columns ∧ 0 ≤ y ∧ y ≤ s.rows ∧ y ≤ 3) →
      HD44780_setCursorPos s x y
        = some (s.emit (byteFrame w s.rsPin s.enablePin false
            (Int.lor 0x80 (rowBase y + x) % 256).toNat)))
    ∧ (¬ (0 ≤ x ∧ x ≤ s.columns ∧ 0 ≤ y ∧ y ≤ s.rows ∧ y ≤ 3) →
      HD44780_setCursorPos s x y = some s)
    ∧ ((HD44780_setCursorPos s x y).map (fun t => decide (newEvents s t ≠ []))
        = some (decide (0 ≤ x ∧ x ≤ s.columns ∧ 0 ≤ y ∧ y ≤ s.rows ∧ y ≤ 3))) := by
  have hacc : (0 ≤ x ∧ x ≤ s.columns ∧ 0 ≤ y ∧ y ≤ s.rows ∧ y ≤ 3) →
      HD44780_setCursorPos s x y
        = some (s.emit (byteFrame w s.rsPin s.enablePin false
            (Int.lor 0x80 (rowBase y + x) % 256).toNat)) := by
    rintro ⟨hx0, hx, hy0, hy, hy3⟩
    have hguard : ¬ (x < 0 ∨ y < 0 ∨ x > s.columns ∨ y > s.rows) := by omega
    have hrow : y = 0 ∨ y = 1 ∨ y = 2 ∨ y = 3 := by omega
    unfold HD44780_setCursorPos
    rw [if_neg hguard]
    rcases hrow with h | h | h | h <;> subst h <;>
      simp [SendInstruction_frame s w _ hw, byteFrame_toUShort, rowBase, HD44780_SET_POSITION,
        HD44780_ROW1_START, HD44780_ROW2_START, HD44780_ROW3_START, HD44780_ROW4_START]
  have hrej : ¬ (0 ≤ x ∧ x ≤ s.columns ∧ 0 ≤ y ∧ y ≤ s.rows ∧ y ≤ 3) →
      HD44780_setCursorPos s x y = some s := by
    intro hn
    unfold HD44780_setCursorPos
    by_cases hguard : x < 0 ∨ y < 0 ∨ x > s.columns ∨ y > s.rows
    · rw [if_pos hguard]
    · rw [if_neg hguard]
      have h0 : ¬ y = 0 := by omega
      have h1 : ¬ y = 1 := by omega
      have h2 : ¬ y = 2 := by omega
      have h3 : ¬ y = 3 := by omega
      rw [if_neg h0, if_neg h1, if_neg h2, if_neg h3]
  refine ⟨hacc, hrej, ?_⟩
  by_cases hc : 0 ≤ x ∧ x ≤ s.columns ∧ 0 ≤ y ∧ y ≤ s.rows ∧ y ≤ 3
  · rw [hacc hc]
    simp [newEvents_emit, byteFrame_ne_nil, hc]
  · rw [hrej hc]
    simp [newEvents, hc]

/-- Witness for C23: on the 2-row, 16-column example panel the boundary
position (16, 2) is accepted, and on the 4-row panel row 4 passes the bounds
check and records nothing. -/
theorem setCursorPos_transmits_iff_witness :
    HD44780_setCursorPos exampleSession 16 2
      = some (exampleSession.emit (byteFrame (Wiring.fourLine exampleBus)
          exampleSession.rsPin exampleSession.enablePin false
          (Int.lor 0x80 (rowBase 2 + 16) % 256).toNat))
    ∧ HD44780_setCursorPos exampleSession4x20 0 4 = some exampleSession4x20 :=
  ⟨(setCursorPos_transmits_iff exampleSession (Wiring.fourLine exampleBus) 16 2
      exampleSession_wired).1 (by decide),
   (setCursorPos_transmits_iff exampleSession4x20
      (Wiring.fourLine { exampleBus with rows := 4, columns := 20 }) 0 4
      ⟨rfl, rfl⟩).2.1 (by decide)⟩

/-! ## CGRAM addresses -/

/-- C25: for every slot in 0..7 the instruction byte that
`HD44780_createChar` sends, `0x40 + slot * 8` converted to `unsigned short`,
lies in 0x40..0x78, has bit 7 clear and bit 6 set, and is a multiple of 8; its
8-address window lies inside 0x40..0x7F, and the windows of two different
slots have no address in common. In either bus mode that byte is the one
instruction frame recorded before the eight data frames. -/
theorem createChar_address_well_formed (slot : Int) (h0 : 0 ≤ slot) (h7 : slot ≤ 7) :
    (0x40 ≤ toUShort (HD44780_CGRAM_START + slot * 8)
      ∧ toUShort (HD44780_CGRAM_START + slot * 8) ≤ 0x78)
    ∧ (toUShort (HD44780_CGRAM_START + slot * 8)).testBit 7 = false
    ∧ (toUShort (HD44780_CGRAM_START + slot * 8)).testBit 6 = true
    ∧ toUShort (HD44780_CGRAM_START + slot * 8) % 8 = 0
    ∧ toUShort (HD44780_CGRAM_START + slot * 8) + 7 ≤ 0x7F
    ∧ (∀ other : Int, 0 ≤ other → other ≤ 7 → other ≠ slot → ∀ a : Nat,
        ¬ (toUShort (HD44780_CGRAM_START + slot * 8) ≤ a
            ∧ a ≤ toUShort (HD44780_CGRAM_START + slot * 8) + 7
            ∧ toUShort (HD44780_CGRAM_START + other * 8) ≤ a
            ∧ a ≤ toUShort (HD44780_CGRAM_START + other * 8) + 7))
    ∧ (∀ (s : Session) (w : Wiring) (data : List Nat), s.WiredAs w → data.length = 8 →
        HD44780_createChar s slot data
          = some (s.emit (byteFrame w s.rsPin s.enablePin false
                (toUShort (HD44780_CGRAM_START + slot * 8))
              ++ data.flatMap fun b => byteFrame w s.rsPin s.enablePin true b))) := by
  have hb : ∀ k : Int, 0 ≤ k → k ≤ 7 →
      (toUShort (HD44780_CGRAM_START + k * 8) : Int) = 64 + k * 8 := by
    intro k hk0 hk7
    unfold toUShort HD44780_CGRAM_START
    omega
  have hs := hb slot h0 h7
  refine ⟨⟨by omega, by omega⟩, ?_, ?_, by omega, by omega, ?_, ?_⟩
  · rw [Nat.testBit_to_div_mod]
    simp only [decide_eq_false_iff_not]
    omega
  · rw [Nat.testBit_to_div_mod]
    simp only [decide_eq_true_eq]
    omega
  · intro other ho0 ho7 hne a
    have ho := hb other ho0 ho7
    omega
  · intro s w data hw hlen
    exact createChar_frames s w slot data hw (by omega) hlen

/-- Witness for C25: slot 7 gives the address 0x78, whose window ends at
0x7F. -/
theorem createChar_address_well_formed_witness :
    toUShort (HD44780_CGRAM_START + 7 * 8) ≤ 0x78
    ∧ toUShort (HD44780_CGRAM_START + 7 * 8) + 7 ≤ 0x7F :=
  have h := createChar_address_well_formed 7 (by decide) (by decide)
  ⟨h.1.2, h.2.2.2.2.1⟩

/-! ## Injectivity of cursor addressing -/

theorem lor_128_of_lt : ∀ m : Nat, m < 128 → 128 ||| m = 128 + m := by
  decide

theorem int_lor_128 (n : Int) (h0 : 0 ≤ n) (h : n < 128) : Int.lor 0x80 n = 128 + n := by
  obtain ⟨m, rfl⟩ := Int.eq_ofNat_of_zero_le h0
  have hm : m < 128 := by omega
  show ((128 ||| m : Nat) : Int) = 128 + (m : Int)
  rw [lor_128_of_lt m hm]
  simp

/-- Two reference frames on the same wires with the same RS level are equal
only if their bytes agree modulo 256. -/
theorem byteFrame_injective (w : Wiring) (r e : gpio_num_t) (rs : Bool) (a b : Nat)
    (h : byteFrame w r e rs a = byteFrame w r e rs b) : a % 256 = b % 256 := by
  have hbits : ∀ i, i < 8 → a.testBit i = b.testBit i := by
    intro i hi
    cases w with
    | fourLine bus =>
      simp only [byteFrame_four_explicit, List.cons.injEq, Event.level.injEq, true_and,
        and_true] at h
      obtain ⟨h7, h6, h5, h4, h3, h2, h1, h0⟩ := h
      interval_cases i <;> assumption
    | eightLine bus =>
      simp only [byteFrame_eight_explicit, List.cons.injEq, Event.level.injEq, true_and,
        and_true] at h
      obtain ⟨h7, h6, h5, h4, h3, h2, h1, h0⟩ := h
      interval_cases i <;> assumption
  apply Nat.eq_of_testBit_eq
  intro i
  have h8 : (256 : Nat) = 2 ^ 8 := by norm_num
  rw [h8, Nat.testBit_mod_two_pow, Nat.testBit_mod_two_pow]
  by_cases hi : i < 8
  · simp [hi, hbits i hi]
  · simp [hi]

/-- C24: on a 4-row panel of at most 20 columns, in either bus mode, two
different positions with `0 <= x < columns` and `0 <= y < 4` make
`HD44780_setCursorPos` record the instruction frames of two different bytes;
each byte has bit 7 set and its low 7 bits are `rowBase y + x`, so the address
never carries into the opcode bit, and the two recordings differ. -/
theorem setCursorPos_injective_on_4x20 (s : Session) (w : Wiring) (x1 y1 x2 y2 : Int)
    (hw : s.WiredAs w) (hrows : s.rows = 4) (hcols : s.columns ≤ 20)
    (h1 : 0 ≤ x1 ∧ x1 < s.columns ∧ 0 ≤ y1 ∧ y1 < 4)
    (h2 : 0 ≤ x2 ∧ x2 < s.columns ∧ 0 ≤ y2 ∧ y2 < 4)
    (hne : (x1, y1) ≠ (x2, y2)) :
    HD44780_setCursorPos s x1 y1
      = some (s.emit (byteFrame w s.rsPin s.enablePin false
          (Int.lor 0x80 (rowBase y1 + x1) % 256).toNat))
    ∧ HD44780_setCursorPos s x2 y2
      = some (s.emit (byteFrame w s.rsPin s.enablePin false
          (Int.lor 0x80 (rowBase y2 + x2) % 256).toNat))
    ∧ (Int.lor 0x80 (rowBase y1 + x1) % 256).toNat
        ≠ (Int.lor 0x80 (rowBase y2 + x2) % 256).toNat
    ∧ HD44780_setCursorPos s x1 y1 ≠ HD44780_setCursorPos s x2 y2
    ∧ ((Int.lor 0x80 (rowBase y1 + x1) % 256).toNat.testBit 7 = true
        ∧ (Int.lor 0x80 (rowBase y1 + x1) % 256).toNat % 128 = (rowBase y1 + x1).toNat)
    ∧ ((Int.lor 0x80 (rowBase y2 + x2) % 256).toNat.testBit 7 = true
        ∧ (Int.lor 0x80 (rowBase y2 + x2) % 256).toNat % 128 = (rowBase y2 + x2).toNat) := by
  obtain ⟨hx10, hx1, hy10, hy1⟩ := h1
  obtain ⟨hx20, hx2, hy20, hy2⟩ := h2
  have hbase : ∀ y : Int, 0 ≤ y → y < 4 →
      rowBase y = 0 ∨ rowBase y = 64 ∨ rowBase y = 20 ∨ rowBase y = 84 := by
    intro y _ _
    unfold rowBase
    split
    · exact Or.inl rfl
    · split
      · exact Or.inr (Or.inl rfl)
      · split
        · exact Or.inr (Or.inr (Or.inl rfl))
        · exact Or.inr (Or.inr (Or.inr rfl))
  have hval : ∀ x y : Int, 0 ≤ x → x < s.columns → 0 ≤ y → y < 4 →
      ((Int.lor 0x80 (rowBase y + x) % 256).toNat : Int) = 128 + (rowBase y + x)
      ∧ 0 ≤ rowBase y + x ∧ rowBase y + x < 128 := by
    intro x y hx0 hx hy0 hy
    have hb := hbase y hy0 hy
    have hlo : 0 ≤ rowBase y + x := by omega
    have hhi : rowBase y + x < 128 := by omega
    rw [int_lor_128 _ hlo hhi]
    omega
  have hsend : ∀ x y : Int, 0 ≤ x → x < s.columns → 0 ≤ y → y < 4 →
      HD44780_setCursorPos s x y
        = some (s.emit (byteFrame w s.rsPin s.enablePin false
            (Int.lor 0x80 (rowBase y + x) % 256).toNat)) := by
    intro x y hx0 hx hy0 hy
    have hguard : ¬ (x < 0 ∨ y < 0 ∨ x > s.columns ∨ y > s.rows) := by omega
    have hrow : y = 0 ∨ y = 1 ∨ y = 2 ∨ y = 3 := by omega
    unfold HD44780_setCursorPos
    rw [if_neg hguard]
    rcases hrow with h | h | h | h <;> subst h <;>
      simp [SendInstruction_frame s w _ hw, byteFrame_toUShort, rowBase, HD44780_SET_POSITION,
        HD44780_ROW1_START, HD44780_ROW2_START, HD44780_ROW3_START, HD44780_ROW4_START]
  have hv1 := hval x1 y1 hx10 hx1 hy10 hy1
  have hv2 := hval x2 y2 hx20 hx2 hy20 hy2
  have hpos : ¬ (x1 = x2 ∧ y1 = y2) := by
    rintro ⟨hx, hy⟩
    exact hne (by rw [hx, hy])
  have hrow1 : y1 = 0 ∨ y1 = 1 ∨ y1 = 2 ∨ y1 = 3 := by omega
  have hrow2 : y2 = 0 ∨ y2 = 1 ∨ y2 = 2 ∨ y2 = 3 := by omega
  have hbytes : (Int.lor 0x80 (rowBase y1 + x1) % 256).toNat
      ≠ (Int.lor 0x80 (rowBase y2 + x2) % 256).toNat := by
    intro heq
    have heq' : (128 : Int) + (rowBase y1 + x1) = 128 + (rowBase y2 + x2) := by
      rw [← hv1.1, ← hv2.1, heq]
    rcases hrow1 with h | h | h | h <;> rcases hrow2 with h' | h' | h' | h' <;>
      subst h <;> subst h' <;> simp only [rowBase] at heq' <;> norm_num at heq' <;> omega
  have hbit : ∀ x y : Int, 0 ≤ x → x < s.columns → 0 ≤ y → y < 4 →
      (Int.lor 0x80 (rowBase y + x) % 256).toNat.testBit 7 = true
      ∧ (Int.lor 0x80 (rowBase y + x) % 256).toNat % 128 = (rowBase y + x).toNat := by
    intro x y hx0 hx hy0 hy
    have hv := hval x y hx0 hx hy0 hy
    constructor
    · rw [Nat.testBit_to_div_mod]
      simp only [decide_eq_true_eq]
      omega
    · omega
  refine ⟨hsend x1 y1 hx10 hx1 hy10 hy1, hsend x2 y2 hx20 hx2 hy20 hy2, hbytes, ?_,
    hbit x1 y1 hx10 hx1 hy10 hy1, hbit x2 y2 hx20 hx2 hy20 hy2⟩
  rw [hsend x1 y1 hx10 hx1 hy10 hy1, hsend x2 y2 hx20 hx2 hy20 hy2]
  intro heq
  have hframes : byteFrame w s.rsPin s.enablePin false
        (Int.lor 0x80 (rowBase y1 + x1) % 256).toNat
      = byteFrame w s.rsPin s.enablePin false
        (Int.lor 0x80 (rowBase y2 + x2) % 256).toNat := by
    have ht := congrArg (fun o => o.map (fun t => newEvents s t)) heq
    simpa [newEvents_emit] using ht
  have hmod := byteFrame_injective w _ _ _ _ _ hframes
  apply hbytes
  omega

/-- Witness for C24: columns 0 of rows 1 and 2 on the 4-row, 20-column
panel are addressed by the different bytes 0xC0 and 0x94. -/
theorem setCursorPos_injective_on_4x20_witness :
    (Int.lor 0x80 (rowBase 1 + 0) % 256).toNat ≠ (Int.lor 0x80 (rowBase 2 + 0) % 256).toNat
    ∧ HD44780_setCursorPos exampleSession4x20 0 1 ≠ HD44780_setCursorPos exampleSession4x20 0 2 :=
  have h := setCursorPos_injective_on_4x20 exampleSession4x20
    (Wiring.fourLine { exampleBus with rows := 4, columns := 20 }) 0 1 0 2
    ⟨rfl, rfl⟩ rfl (by decide) (by decide) (by decide) (by decide)
  ⟨h.2.2.1, h.2.2.2.1⟩

/-! ## Register select -/

/-- C21: in either bus mode and for every value `v`, the recording of
`HD44780_SendInstruction(v)` begins with RS low and that of
`HD44780_SendData(v)` begins with RS high; after that first event the two
recordings are the same, and they write only data lines and E, so RS is
written once, before any data line or E; when the RS pin is none of the data
lines and not the E pin, each recording holds exactly one write to it. -/
theorem send_register_select (s : Session) (w : Wiring) (v : Nat) (hw : s.WiredAs w) :
    (HD44780_SendInstruction s v).map (fun t => (newEvents s t).head?)
      = some (some (Event.level s.rsPin false))
    ∧ (HD44780_SendData s v).map (fun t => (newEvents s t).head?)
      = some (some (Event.level s.rsPin true))
    ∧ (HD44780_SendInstruction s v).map (fun t => (newEvents s t).tail)
      = (HD44780_SendData s v).map (fun t => (newEvents s t).tail)
    ∧ (∀ t, HD44780_SendData s v = some t →
        ∀ p ∈ pinWrites (newEvents s t).tail, p.1 ∈ w.dataPins ∨ p.1 = s.enablePin)
    ∧ (s.rsPin ∉ w.dataPins → s.rsPin ≠ s.enablePin →
        (HD44780_SendInstruction s v).map
            (fun t => ((pinWrites (newEvents s t)).filter fun p => p.1 = s.rsPin).length)
          = some 1
        ∧ (HD44780_SendData s v).map
            (fun t => ((pinWrites (newEvents s t)).filter fun p => p.1 = s.rsPin).length)
          = some 1) := by
  rw [SendInstruction_frame s w v hw, SendData_frame s w v hw]
  simp only [Option.map_some', newEvents_emit]
  cases w with
  | fourLine bus =>
    simp only [byteFrame_four_explicit]
    refine ⟨rfl, rfl, rfl, ?_, ?_⟩
    · intro t ht p hp
      rw [← Option.some.inj ht, newEvents_emit] at hp
      simp [pinWrites, Wiring.dataPins] at hp ⊢
      rcases hp with h | h | h | h | h | h | h | h | h | h | h | h <;> simp [h]
    · intro hd he
      simp only [Wiring.dataPins, List.mem_cons, List.mem_singleton, List.not_mem_nil,
        or_false, not_or] at hd
      obtain ⟨h7, h6, h5, h4⟩ := hd
      simp [pinWrites, List.filter_cons, Ne.symm h7, Ne.symm h6, Ne.symm h5, Ne.symm h4,
        Ne.symm he]
  | eightLine bus =>
    simp only [byteFrame_eight_explicit]
    refine ⟨rfl, rfl, rfl, ?_, ?_⟩
    · intro t ht p hp
      rw [← Option.some.inj ht, newEvents_emit] at hp
      simp [pinWrites, Wiring.dataPins] at hp ⊢
      rcases hp with h | h | h | h | h | h | h | h | h | h <;> simp [h]
    · intro hd he
      simp only [Wiring.dataPins, List.mem_cons, List.mem_singleton, List.not_mem_nil,
        or_false, not_or] at hd
      obtain ⟨h7, h6, h5, h4, h3, h2, h1, h0⟩ := hd
      simp [pinWrites, List.filter_cons, Ne.symm h7, Ne.symm h6, Ne.symm h5, Ne.symm h4,
        Ne.symm h3, Ne.symm h2, Ne.symm h1, Ne.symm h0, Ne.symm he]

/-- Witness for C21: on the four-line example panel, whose RS pin 17 is
neither a data line nor E, each of the two recordings writes RS once. -/
theorem send_register_select_witness :
    (HD44780_SendInstruction exampleSession 0x41).map
        (fun t => ((pinWrites (newEvents exampleSession t)).filter fun p => p.1 = 17).length)
      = some 1
    ∧ (HD44780_SendData exampleSession 0x41).map
        (fun t => ((pinWrites (newEvents exampleSession t)).filter fun p => p.1 = 17).length)
      = some 1 :=
  (send_register_select exampleSession (Wiring.fourLine exampleBus) 0x41
    exampleSession_wired).2.2.2.2 (by decide) (by decide)

/-! ## Framing round trip -/

theorem bits_to_byte (v : Nat) :
    2 * (2 * (2 * (2 * (2 * (2 * (2 * (v.testBit 7).toNat + (v.testBit 6).toNat)
        + (v.testBit 5).toNat) + (v.testBit 4).toNat) + (v.testBit 3).toNat)
        + (v.testBit 2).toNat) + (v.testBit 1).toNat) + (v.testBit 0).toNat
      = v % 256 := by
  have h7 : (v.testBit 7).toNat = v / 128 % 2 := Nat.toNat_testBit v 7
  have h6 : (v.testBit 6).toNat = v / 64 % 2 := Nat.toNat_testBit v 6
  have h5 : (v.testBit 5).toNat = v / 32 % 2 := Nat.toNat_testBit v 5
  have h4 : (v.testBit 4).toNat = v / 16 % 2 := Nat.toNat_testBit v 4
  have h3 : (v.testBit 3).toNat = v / 8 % 2 := Nat.toNat_testBit v 3
  have h2 : (v.testBit 2).toNat = v / 4 % 2 := Nat.toNat_testBit v 2
  have h1 : (v.testBit 1).toNat = v / 2 % 2 := Nat.toNat_testBit v 1
  have h0 : (v.testBit 0).toNat = v / 1 % 2 := Nat.toNat_testBit v 0
  have s8 : v % 256 = v % 128 + 128 * (v / 128 % 2) := Nat.mod_mul (x := v) (a := 128) (b := 2)
  have s7 : v % 128 = v % 64 + 64 * (v / 64 % 2) := Nat.mod_mul (x := v) (a := 64) (b := 2)
  have s6 : v % 64 = v % 32 + 32 * (v / 32 % 2) := Nat.mod_mul (x := v) (a := 32) (b := 2)
  have s5 : v % 32 = v % 16 + 16 * (v / 16 % 2) := Nat.mod_mul (x := v) (a := 16) (b := 2)
  have s4 : v % 16 = v % 8 + 8 * (v / 8 % 2) := Nat.mod_mul (x := v) (a := 8) (b := 2)
  have s3 : v % 8 = v % 4 + 4 * (v / 4 % 2) := Nat.mod_mul (x := v) (a := 4) (b := 2)
  have s2 : v % 4 = v % 2 + 2 * (v / 2 % 2) := Nat.mod_mul (x := v) (a := 2) (b := 2)
  have s1 : v / 1 % 2 = v % 2 := by rw [Nat.div_one]
  rw [h7, h6, h5, h4, h3, h2, h1, h0, s8, s7, s6, s5, s4, s3, s2, s1]
  ring

theorem reconstructed_fourLine (bus : HD44780_FOUR_BIT_BUS) (r e : gpio_num_t) (rs : Bool)
    (v : Nat) (hnd : (e :: (Wiring.fourLine bus).dataPins).Nodup) :
    reconstructedByte (Wiring.fourLine bus) e (byteFrame (Wiring.fourLine bus) r e rs v)
      = some (v % 256) := by
  simp only [Wiring.dataPins, List.nodup_cons, List.mem_cons, List.mem_singleton,
    List.not_mem_nil, or_false, not_or, List.nodup_nil, and_true, not_false_eq_true] at hnd
  obtain ⟨⟨e7, e6, e5, e4⟩, ⟨h76, h75, h74⟩, ⟨h65, h64⟩, h54⟩ := hnd
  rw [byteFrame_four_explicit, ← bits_to_byte v]
  generalize v.testBit 7 = b7
  generalize v.testBit 6 = b6
  generalize v.testBit 5 = b5
  generalize v.testBit 4 = b4
  generalize v.testBit 3 = b3
  generalize v.testBit 2 = b2
  generalize v.testBit 1 = b1
  generalize v.testBit 0 = b0
  simp [reconstructedByte, latchedLevels, lastLevel, pinWrites, Wiring.dataPins, bitsValue,
    e7, e6, e5, e4, h76, h75, h74, h65, h64, h54,
    Ne.symm e7, Ne.symm e6, Ne.symm e5, Ne.symm e4, Ne.symm h76, Ne.symm h75, Ne.symm h74,
    Ne.symm h65, Ne.symm h64, Ne.symm h54]
  ring

theorem reconstructed_eightLine (bus : HD44780_EIGHT_BIT_BUS) (r e : gpio_num_t) (rs : Bool)
    (v : Nat) (hnd : (e :: (Wiring.eightLine bus).dataPins).Nodup) :
    reconstructedByte (Wiring.eightLine bus) e (byteFrame (Wiring.eightLine bus) r e rs v)
      = some (v % 256) := by
  simp only [Wiring.dataPins, List.nodup_cons, List.mem_cons, List.mem_singleton,
    List.not_mem_nil, or_false, not_or, List.nodup_nil, and_true, not_false_eq_true] at hnd
  obtain ⟨⟨e7, e6, e5, e4, e3, e2, e1, e0⟩, ⟨h76, h75, h74, h73, h72, h71, h70⟩, ⟨h65, h64, h63, h62, h61, h60⟩, ⟨h54, h53, h52, h51, h50⟩, ⟨h43, h42, h41, h40⟩, ⟨h32, h31, h30⟩, ⟨h21, h20⟩, h10⟩ := hnd
  rw [byteFrame_eight_explicit, ← bits_to_byte v]
  generalize v.testBit 7 = b7
  generalize v.testBit 6 = b6
  generalize v.testBit 5 = b5
  generalize v.testBit 4 = b4
  generalize v.testBit 3 = b3
  generalize v.testBit 2 = b2
  generalize v.testBit 1 = b1
  generalize v.testBit 0 = b0
  simp [reconstructedByte, latchedLevels, lastLevel, pinWrites, Wiring.dataPins, bitsValue,
    e7, e6, e5, e4, e3, e2, e1, e0, h76, h75, h74, h73, h72, h71, h70, h65, h64, h63, h62, h61,
    h60, h54, h53, h52, h51, h50, h43, h42, h41, h40, h32, h31, h30, h21, h20, h10, Ne.symm e7,
    Ne.symm e6, Ne.symm e5, Ne.symm e4, Ne.symm e3, Ne.symm e2, Ne.symm e1, Ne.symm e0,
    Ne.symm h76, Ne.symm h75, Ne.symm h74, Ne.symm h73, Ne.symm h72, Ne.symm h71, Ne.symm h70,
    Ne.symm h65, Ne.symm h64, Ne.symm h63, Ne.symm h62, Ne.symm h61, Ne.symm h60, Ne.symm h54,
    Ne.symm h53, Ne.symm h52, Ne.symm h51, Ne.symm h50, Ne.symm h43, Ne.symm h42, Ne.symm h41,
    Ne.symm h40, Ne.symm h32, Ne.symm h31, Ne.symm h30, Ne.symm h21, Ne.symm h20, Ne.symm h10]

/-- C22: in either bus mode whose E pin and data lines are pairwise different
pins, for every value `v` passed to `HD44780_SendInstruction` or
`HD44780_SendData`, the byte the controller reconstructs from the data-line
levels at each falling edge of E (four-line: first nibble times 16 plus
second nibble, from D7..D4; eight-line: D7..D0 at the single pulse) is
`v mod 256`; so both bus modes deliver the same byte, and the bits of `v` above
bit 7 never change the result of the call. -/
theorem framing_round_trip (s : Session) (w : Wiring) (v : Nat) (hw : s.WiredAs w)
    (hpins : (s.enablePin :: w.dataPins).Nodup) :
    (HD44780_SendInstruction s v).map
        (fun t => reconstructedByte w s.enablePin (newEvents s t)) = some (some (v % 256))
    ∧ (HD44780_SendData s v).map
        (fun t => reconstructedByte w s.enablePin (newEvents s t)) = some (some (v % 256))
    ∧ HD44780_SendInstruction s v = HD44780_SendInstruction s (v % 256)
    ∧ HD44780_SendData s v = HD44780_SendData s (v % 256) := by
  have hrec : ∀ rs : Bool,
      reconstructedByte w s.enablePin (byteFrame w s.rsPin s.enablePin rs v)
        = some (v % 256) := by
    intro rs
    cases w with
    | fourLine bus => exact reconstructed_fourLine bus _ _ rs v hpins
    | eightLine bus => exact reconstructed_eightLine bus _ _ rs v hpins
  refine ⟨?_, ?_, ?_, ?_⟩
  · rw [SendInstruction_frame s w v hw]
    simp only [Option.map_some', newEvents_emit, hrec]
  · rw [SendData_frame s w v hw]
    simp only [Option.map_some', newEvents_emit, hrec]
  · rw [SendInstruction_frame s w v hw, SendInstruction_frame s w _ hw, byteFrame_mod_256]
  · rw [SendData_frame s w v hw, SendData_frame s w _ hw, byteFrame_mod_256]

/-- Witness for C22: the value 0xFFE9 (the character code 0xE9 sign-extended
to 16 bits) reaches the controller as 0xE9 on the four-line and on the
eight-line example panel. -/
theorem framing_round_trip_witness :
    (HD44780_SendData exampleSession 0xFFE9).map
        (fun t => reconstructedByte (Wiring.fourLine exampleBus) 19
          (newEvents exampleSession t)) = some (some 0xE9)
    ∧ (HD44780_SendData exampleSession8 0xFFE9).map
        (fun t => reconstructedByte (Wiring.eightLine exampleBus8) 19
          (newEvents exampleSession8 t)) = some (some 0xE9) :=
  ⟨(framing_round_trip exampleSession (Wiring.fourLine exampleBus) 0xFFE9
      exampleSession_wired (by decide)).2.1,
   (framing_round_trip exampleSession8 (Wiring.eightLine exampleBus8) 0xFFE9
      exampleSession8_wired (by decide)).2.1⟩

end HD44780
